import Mathlib

/-!
Verification of the route-visualization engine (geographic layout,
collision/collinearity resolution, uniform-edge-length layout and the
playback controller) against its natural-language specification.

The JavaScript source is shallowly embedded: JS numbers are modelled as
real numbers, `Math.hypot`/`Math.pow`/trigonometry as the corresponding
real functions, DOM text measurement and the d3 force simulation as
oracles (explicit function parameters), and `Math.random()` as an oracle
indexed by the call site (pass and pair indices). Definitions come first,
theorems (with concrete evaluation lemmas) after.
-/

namespace TSPViz

noncomputable section

open Real

open scoped Classical

/-- Math.sign. -/
def jsSign (x : ℝ) : ℝ := if 0 < x then 1 else if x < 0 then -1 else 0

/-- Math.hypot for two arguments. -/
def jsHypot (x y : ℝ) : ℝ := Real.sqrt (x ^ 2 + y ^ 2)

/-- Math.round: round half up. -/
def jsRound (x : ℝ) : ℝ := (⌊x + 1 / 2⌋ : ℤ)

/-- Math.atan2(y, x): the argument of the complex number x + y·i, in (-π, π]. -/
def jsAtan2 (y x : ℝ) : ℝ := Complex.arg (Complex.mk x y)

/-- JS `a || b` on numbers (b is used when a is 0 or NaN; we model only 0). -/
def jsOrNum (a b : ℝ) : ℝ := if a = 0 then b else a

/-- Math.max(lo, Math.min(hi, v)), the clamping pattern used throughout the
source. -/
def clampR (lo hi v : ℝ) : ℝ := max lo (min hi v)

/-- Degrees to radians, the `toRad` helper of `haversineKm`. -/
def toRad (d : ℝ) : ℝ := d * π / 180

/-- Haversine distance in km with Earth radius 6371 (part_000 lines 307-315). -/
def haversineKm (lat1 lon1 lat2 lon2 : ℝ) : ℝ :=
  let R : ℝ := 6371
  let dLat := toRad (lat2 - lat1)
  let dLon := toRad (lon2 - lon1)
  let a := Real.sin (dLat / 2) * Real.sin (dLat / 2) +
    Real.cos (toRad lat1) * Real.cos (toRad lat2) *
    (Real.sin (dLon / 2) * Real.sin (dLon / 2))
  let c := 2 * jsAtan2 (Real.sqrt a) (Real.sqrt (1 - a))
  R * c

/-- A latitude/longitude pair as the optimize page passes it. -/
structure Coord where
  lat : ℝ
  lng : ℝ

/-- calculateDistance (src/static/js/optimize_route.js lines 29-39): the same
haversine formula written with inline degree-to-radian conversion. -/
def calculateDistance (coord1 coord2 : Coord) : ℝ :=
  let R : ℝ := 6371
  let dLat := (coord2.lat - coord1.lat) * π / 180
  let dLon := (coord2.lng - coord1.lng) * π / 180
  let a := Real.sin (dLat / 2) * Real.sin (dLat / 2) +
    Real.cos (coord1.lat * π / 180) * Real.cos (coord2.lat * π / 180) *
    (Real.sin (dLon / 2) * Real.sin (dLon / 2))
  let c := 2 * jsAtan2 (Real.sqrt a) (Real.sqrt (1 - a))
  R * c

/-- One geographic waypoint after input normalization. -/
structure Waypoint where
  lat : ℝ
  lng : ℝ
  name : String

/-- d3.min on a non-empty list (0 is a dummy for the empty case, which the
source never reaches on the paths we verify). -/
def d3min : List ℝ → ℝ
  | [] => 0
  | h :: t => t.foldl min h

/-- d3.max, see `d3min`. -/
def d3max : List ℝ → ℝ
  | [] => 0
  | h :: t => t.foldl max h

/-- Canvas padding (line 32). -/
def pad : ℝ := 40

/-- Power-law compression exponent (line 43). -/
def compressionExp : ℝ := 0.6

/-- Degenerate-span expansion (lines 38-39 and 57-58): widen a span smaller
than 1e-6 by 0.5 on each side. -/
def expandDomain (mn mx : ℝ) : ℝ × ℝ :=
  if |mx - mn| < 1e-6 then (mn - 0.5, mx + 0.5) else (mn, mx)

def lonBounds (pts : List Waypoint) : ℝ × ℝ :=
  expandDomain (d3min (pts.map Waypoint.lng)) (d3max (pts.map Waypoint.lng))

def latBounds (pts : List Waypoint) : ℝ × ℝ :=
  expandDomain (d3min (pts.map Waypoint.lat)) (d3max (pts.map Waypoint.lat))

def lonCenter (pts : List Waypoint) : ℝ := ((lonBounds pts).1 + (lonBounds pts).2) / 2

def latCenter (pts : List Waypoint) : ℝ := ((latBounds pts).1 + (latBounds pts).2) / 2

/-- Power-law compression about the bounding-box center (lines 46-53):
sign(d) * |d| ^ 0.6 + center. -/
def compress (c x : ℝ) : ℝ := jsSign (x - c) * |x - c| ^ compressionExp + c

def lonTrans (pts : List Waypoint) : List ℝ :=
  (pts.map Waypoint.lng).map (compress (lonCenter pts))

def latTrans (pts : List Waypoint) : List ℝ :=
  (pts.map Waypoint.lat).map (compress (latCenter pts))

def lonTBounds (pts : List Waypoint) : ℝ × ℝ :=
  expandDomain (d3min (lonTrans pts)) (d3max (lonTrans pts))

def latTBounds (pts : List Waypoint) : ℝ × ℝ :=
  expandDomain (d3min (latTrans pts)) (d3max (latTrans pts))

/-- d3.scaleLinear with domain [d0, d1] and range [r0, r1] (no clamping). -/
def linearScale (d0 d1 r0 r1 x : ℝ) : ℝ := r0 + (x - d0) / (d1 - d0) * (r1 - r0)

/-- xScale (line 60): domain = compressed longitude bounds,
range = [pad, width - pad]. -/
def xScale (width : ℝ) (pts : List Waypoint) (l : ℝ) : ℝ :=
  linearScale (lonTBounds pts).1 (lonTBounds pts).2 pad (width - pad) l

/-- yScale (line 61): domain = [latTMax, latTMin] (inverted),
range = [pad, height - pad]. -/
def yScale (height : ℝ) (pts : List Waypoint) (t : ℝ) : ℝ :=
  linearScale (latTBounds pts).2 (latTBounds pts).1 pad (height - pad) t

/-- One entry of the `nodePositions` array. -/
structure NodePos where
  x : ℝ
  y : ℝ
  label : String
  fontSize : ℝ
  sizeScale : ℝ
  labelY : ℝ
  labelWidth : ℝ
  labelHeight : ℝ

/-- Default node record (reads of a missing array entry). -/
def dNP : NodePos := ⟨0, 0, "", 0, 0, 0, 0, 0⟩

/-- Default waypoint for out-of-range reads. -/
def wDflt : Waypoint := ⟨0, 0, ""⟩

/-- The DOM text-measurement oracle (getBBox); `none` models the throwing
branch recovered by the character-count heuristic. -/
def Measure : Type := String → ℝ → Option (ℝ × ℝ)

/-- The Math.random() oracle of the pairwise resolver, indexed by pass and
pair; each component is one `Math.random() - 0.5` draw (line 203). -/
def Rnd : Type := ℕ → ℕ → ℕ → ℝ × ℝ

/-- Node radius `sizeScale` (line 82): clamp(round(600/N) + 6, 8, 24). -/
def sizeScaleOf (n : ℕ) : ℝ := max 8 (min 24 (jsRound (600 / n) + 6))

/-- Label font size (line 83): clamp(round(sizeScale * 0.9), 10, 20). -/
def fontSizeOf (n : ℕ) : ℝ := max 10 (min 20 (jsRound (sizeScaleOf n * 0.9)))

/-- Display label (lines 86-88): the name, or the one-based index when the
name is empty, truncated to 60 characters with an ellipsis. -/
def labelOf (i : ℕ) (p : Waypoint) : String :=
  let label := if p.name.length ≠ 0 then p.name else toString (i + 1)
  if 60 < label.length then label.take 57 ++ "..." else label

/-- Label bounding box (lines 90-95): the measured box when getBBox succeeds,
otherwise the character-count fallback of the catch branch (height stays 0). -/
def bboxOf (width : ℝ) (measure : Measure) (label : String) (fontSize : ℝ) : ℝ × ℝ :=
  match measure label fontSize with
  | some wh => wh
  | none => (min (width - 2 * pad) (label.length * max 6 (jsRound (fontSize * 0.6))), 0)

def labelWidthOf (width : ℝ) (measure : Measure) (pts : List Waypoint) (i : ℕ) : ℝ :=
  min (width - 2 * pad)
    (bboxOf width measure (labelOf i (pts.getD i wDflt)) (fontSizeOf pts.length)).1

def labelHeightOf (width : ℝ) (measure : Measure) (pts : List Waypoint) (i : ℕ) : ℝ :=
  jsOrNum (bboxOf width measure (labelOf i (pts.getD i wDflt)) (fontSizeOf pts.length)).2
    (fontSizeOf pts.length + 4)

/-- Clamped x (line 97): keeps the label inside the horizontal padding. -/
def clampedXOf (width : ℝ) (measure : Measure) (pts : List Waypoint) (i : ℕ) : ℝ :=
  max (pad + labelWidthOf width measure pts i / 2)
    (min (width - pad - labelWidthOf width measure pts i / 2)
      (xScale width pts (pts.getD i wDflt).lng))

/-- Clamped y (lines 98-100). -/
def clampedYOf (width height : ℝ) (measure : Measure) (pts : List Waypoint) (i : ℕ) : ℝ :=
  max (pad + sizeScaleOf pts.length)
    (min (height - pad - sizeScaleOf pts.length - labelHeightOf width measure pts i - 4)
      (yScale height pts (pts.getD i wDflt).lat))

/-- Vertical label offset (lines 101-102): below the node, or above it when
too close to the bottom padding. -/
def labelYOf (width height : ℝ) (measure : Measure) (pts : List Waypoint) (i : ℕ) : ℝ :=
  let l0 := sizeScaleOf pts.length + jsRound (fontSizeOf pts.length / 1.5)
  if height - pad < clampedYOf width height measure pts i + l0 + 4 then
    -jsRound (fontSizeOf pts.length / 2) - 4
  else l0

/-- One precomputed node position (lines 84-104). -/
def computePos (width height : ℝ) (measure : Measure) (pts : List Waypoint) (i : ℕ) :
    NodePos :=
  { x := clampedXOf width measure pts i
    y := clampedYOf width height measure pts i
    label := labelOf i (pts.getD i wDflt)
    fontSize := fontSizeOf pts.length
    sizeScale := sizeScaleOf pts.length
    labelY := labelYOf width height measure pts i
    labelWidth := labelWidthOf width measure pts i
    labelHeight := labelHeightOf width measure pts i }

/-- computeAllPositions (lines 81-105) on the fresh (empty) nodePositions
array: entry i is written for every waypoint index. -/
def computeAllPositions (width height : ℝ) (measure : Measure) (pts : List Waypoint) :
    List NodePos :=
  (List.range pts.length).map (computePos width height measure pts)

/-- Minimum pair separation (lines 204-211): node radii plus the larger half
label width plus 8, times the 1.6 proximity factor when the real-world
distance is under 1000 km. -/
def minSepOf (pts : List Waypoint) (s : List NodePos) (i j : ℕ) : ℝ :=
  let a := s.getD i dNP
  let b := s.getD j dNP
  let realKm := haversineKm (pts.getD i wDflt).lat (pts.getD i wDflt).lng
    (pts.getD j wDflt).lat (pts.getD j wDflt).lng
  let proximityFactor : ℝ := if realKm < 1000 then 1.6 else 1.0
  ((a.sizeScale + b.sizeScale) + max (jsOrNum a.labelWidth 0) (jsOrNum b.labelWidth 0) / 2 + 8) *
    proximityFactor

/-- The (dx, dy, dist) triple of lines 201-203: the raw difference vector and
its length, replaced by the random draw `rnd p i j` when the pair coincides. -/
def pairDxDyDist (rnd : Rnd) (p i j : ℕ) (s : List NodePos) : ℝ × ℝ × ℝ :=
  let a := s.getD i dNP
  let b := s.getD j dNP
  let dx0 := b.x - a.x
  let dy0 := b.y - a.y
  let dist0 := jsHypot dx0 dy0
  if dist0 = 0 then ((rnd p i j).1, (rnd p i j).2, jsHypot (rnd p i j).1 (rnd p i j).2)
  else (dx0, dy0, dist0)

/-- The clamped push-apart targets of lines 213-219: ((axNew, ayNew),
(bxNew, byNew)). -/
def pairNewPos (width height : ℝ) (pts : List Waypoint) (rnd : Rnd) (p i j : ℕ)
    (s : List NodePos) : (ℝ × ℝ) × (ℝ × ℝ) :=
  let a := s.getD i dNP
  let b := s.getD j dNP
  let dd := pairDxDyDist rnd p i j s
  let dx := dd.1
  let dy := dd.2.1
  let dist := dd.2.2
  let minSep := minSepOf pts s i j
  let overlap := (minSep - dist) / 2
  let nx := dx / (if dist = 0 then 1 else dist)
  let ny := dy / (if dist = 0 then 1 else dist)
  ((clampR pad (width - pad) (a.x - nx * overlap),
    clampR pad (height - pad) (a.y - ny * overlap)),
   (clampR pad (width - pad) (b.x + nx * overlap),
    clampR pad (height - pad) (b.y + ny * overlap)))

/-- One pairwise-separation update for pair (i, j) in pass p (lines 198-223):
the new state and whether any coordinate changed (the `moved` flag of
line 220). -/
def pairStepM (width height : ℝ) (pts : List Waypoint) (rnd : Rnd) (p i j : ℕ)
    (s : List NodePos) : List NodePos × Bool :=
  let a := s.getD i dNP
  let b := s.getD j dNP
  if (pairDxDyDist rnd p i j s).2.2 < minSepOf pts s i j then
    let q := pairNewPos width height pts rnd p i j s
    let moved : Bool := if q.1.1 = a.x ∧ q.1.2 = a.y ∧ q.2.1 = b.x ∧ q.2.2 = b.y then
      false else true
    ((s.set i { a with x := q.1.1, y := q.1.2 }).set j { b with x := q.2.1, y := q.2.2 },
      moved)
  else (s, false)

/-- The (i, j) pair ordering of the nested loops at lines 196-197. -/
def pairsUpTo (n : ℕ) : List (ℕ × ℕ) :=
  (List.range n).flatMap fun i => ((List.range n).filter fun j => decide (i < j)).map fun j => (i, j)

/-- The fold step of one pairwise pass: apply `pairStepM` and accumulate the
moved flag. -/
def pairFold (width height : ℝ) (pts : List Waypoint) (rnd : Rnd) (p : ℕ)
    (acc : List NodePos × Bool) (ij : ℕ × ℕ) : List NodePos × Bool :=
  let r := pairStepM width height pts rnd p ij.1 ij.2 acc.1
  (r.1, acc.2 || r.2)

/-- One full pairwise pass (lines 195-225), accumulating the moved flag. -/
def onePass (width height : ℝ) (pts : List Waypoint) (rnd : Rnd) (p : ℕ)
    (s : List NodePos) : List NodePos × Bool :=
  (pairsUpTo pts.length).foldl (pairFold width height pts rnd p) (s, false)

/-- The bounded pairwise loop (lines 193-227): up to `fuel` passes starting
at pass index p, early exit when a pass moves nothing. Returns the final
state, the index of the last executed pass, and whether it exited early. -/
def pairLoop (width height : ℝ) (pts : List Waypoint) (rnd : Rnd) :
    ℕ → ℕ → List NodePos → List NodePos × ℕ × Bool
  | 0, p, s => (s, p, false)
  | fuel + 1, p, s =>
    let r := onePass width height pts rnd p s
    if r.2 then pairLoop width height pts rnd fuel (p + 1) r.1 else (r.1, p, true)

/-- The ordered (i, j, k) triples of the nested loops at lines 154-156
(distinct indices only, the others `continue`). -/
def triplesUpTo (n : ℕ) : List (ℕ × ℕ × ℕ) :=
  (List.range n).flatMap fun i =>
    (List.range n).flatMap fun j =>
      ((List.range n).filter fun k => decide (¬(i = j ∨ j = k ∨ i = k))).map fun k => (i, j, k)

/-- One collinearity correction for the triple (i, j, k) (lines 157-187):
nudge the vertex j perpendicular to the i-j direction when the angle at j is
within 45° of 0 or of 180°. -/
def collinStep (width height : ℝ) (pts : List Waypoint) (ijk : ℕ × ℕ × ℕ)
    (s : List NodePos) : List NodePos × Bool :=
  let i := ijk.1
  let j := ijk.2.1
  let k := ijk.2.2
  let a := s.getD i dNP
  let b := s.getD j dNP
  let c := s.getD k dNP
  let v1x := a.x - b.x
  let v1y := a.y - b.y
  let v2x := c.x - b.x
  let v2y := c.y - b.y
  let mag1 := jsHypot v1x v1y
  let mag2 := jsHypot v2x v2y
  if mag1 < 1e-6 ∨ mag2 < 1e-6 then (s, false)
  else
    let dot := v1x * v2x + v1y * v2y
    let ang := Real.arccos (max (-1) (min 1 (dot / (mag1 * mag2))))
    let angleThreshold := 45 * π / 180
    if ang < angleThreshold ∨ |π - ang| < angleThreshold then
      let nx := v1x / mag1
      let ny := v1y / mag1
      let px := -ny
      let py := nx
      let aSize := jsOrNum a.sizeScale 12
      let cSize := jsOrNum c.sizeScale 12
      let abKm := haversineKm (pts.getD i wDflt).lat (pts.getD i wDflt).lng
        (pts.getD j wDflt).lat (pts.getD j wDflt).lng
      let cbKm := haversineKm (pts.getD k wDflt).lat (pts.getD k wDflt).lng
        (pts.getD j wDflt).lat (pts.getD j wDflt).lng
      let nudgeMultiplier : ℝ :=
        if (¬abKm = 0 ∧ abKm < 1000) ∨ (¬cbKm = 0 ∧ cbKm < 1000) then 1.6 else 1.0
      let nudge := max 10 ((aSize + cSize) * 0.6 * nudgeMultiplier)
      let dir : ℝ := if j % 2 = 0 then 1 else -1
      let bx := clampR pad (width - pad) (b.x + px * nudge * dir)
      let by' := clampR pad (height - pad) (b.y + py * nudge * dir)
      (s.set j { b with x := bx, y := by' }, true)
    else (s, false)

/-- The fold step of one collinearity pass. -/
def collinFold (width height : ℝ) (pts : List Waypoint)
    (acc : List NodePos × Bool) (ijk : ℕ × ℕ × ℕ) : List NodePos × Bool :=
  let r := collinStep width height pts ijk acc.1
  (r.1, acc.2 || r.2)

/-- One pass of resolveCollinearity (lines 150-191), accumulating the
adjusted flag. -/
def resolveCollinearity (width height : ℝ) (pts : List Waypoint) (s : List NodePos) :
    List NodePos × Bool :=
  (triplesUpTo pts.length).foldl (collinFold width height pts) (s, false)

/-- The bounded collinearity loop (lines 229-237): up to 6 passes, early exit
when nothing changed. -/
def collinLoop (width height : ℝ) (pts : List Waypoint) :
    ℕ → List NodePos → List NodePos
  | 0, s => s
  | fuel + 1, s =>
    let r := resolveCollinearity width height pts s
    if r.2 then collinLoop width height pts fuel r.1 else r.1

/-- The full collision-and-collinearity resolver (lines 148-245): 25-pass
pairwise phase, then up to 6 collinearity passes. -/
def resolveCollisions (width height : ℝ) (pts : List Waypoint) (rnd : Rnd)
    (s : List NodePos) : List NodePos :=
  collinLoop width height pts 6 (pairLoop width height pts rnd 25 0 s).1

/-- sizeScale of the simulation node i (line 351): from nodePositions with the
waypoint-count default as fallback. -/
def simNodeSizeScale (pts : List Waypoint) (s : List NodePos) (i : ℕ) : ℝ :=
  jsOrNum (s.getD i dNP).sizeScale (sizeScaleOf pts.length)

/-- labelWidth of the simulation node i (line 352): fallback is six pixels per
character of the name (or of the one-based index). -/
def simNodeLabelWidth (pts : List Waypoint) (s : List NodePos) (i : ℕ) : ℝ :=
  let nameStr := if (pts.getD i wDflt).name = "" then toString (i + 1)
    else (pts.getD i wDflt).name
  jsOrNum (s.getD i dNP).labelWidth (nameStr.length * 6)

/-- The write-back record for node i (lines 379-381): Object.assign of the
previous entry with the clamped simulation position and the sim node's
metrics. Each id is written exactly once, so the merge base read at write
time equals the pre-loop entry `s.getD i`. -/
def uniformMerge (width height : ℝ) (pts : List Waypoint) (simOut : ℕ → ℝ × ℝ)
    (s : List NodePos) (i : ℕ) : NodePos :=
  let old := s.getD i dNP
  { old with
    x := clampR pad (width - pad) (simOut i).1
    y := clampR pad (height - pad) (simOut i).2
    sizeScale := simNodeSizeScale pts s i
    labelWidth := simNodeLabelWidth pts s i
    labelHeight := jsOrNum (s.getD i dNP).labelHeight 12
    fontSize := jsOrNum (s.getD i dNP).fontSize 12 }

/-- applyUniformLinkLayout (lines 342-390) restricted to its effect on
nodePositions: early return when at most one point; otherwise the d3
simulation (the oracle `simOut`, giving each node's settled coordinates after
the 300 synchronous ticks) is written back clamped to the canvas padding,
merged over the previous entry (lines 378-381). -/
def applyUniformLinkLayout (width height : ℝ) (pts : List Waypoint)
    (simOut : ℕ → ℝ × ℝ) (s : List NodePos) : List NodePos :=
  if pts.length ≤ 1 then s
  else
    (List.range pts.length).foldl
      (fun acc i => acc.set i (uniformMerge width height pts simOut s i)) s

/-- Every node position lies inside the padded canvas. -/
def InBounds (width height : ℝ) (s : List NodePos) : Prop :=
  ∀ q ∈ s, pad ≤ q.x ∧ q.x ≤ width - pad ∧ pad ≤ q.y ∧ q.y ≤ height - pad

/-- A nonnegative-measurement oracle: getBBox boxes have nonnegative sides. -/
def MeasureNonneg (measure : Measure) : Prop :=
  ∀ l f wh, measure l f = some wh → 0 ≤ wh.1 ∧ 0 ≤ wh.2

/-- computeAllPositions rerun over an existing nodePositions array: the loop
of lines 84-103 overwrites entry i for every waypoint index i. -/
def computeAllPositionsState (width height : ℝ) (measure : Measure)
    (pts : List Waypoint) (old : List NodePos) : List NodePos :=
  (List.range pts.length).foldl
    (fun acc i => acc.set i (computePos width height measure pts i)) old

/-- The lightweight relaxation's minimum separation (line 414): no proximity
factor. -/
def relaxMinSep (s : List NodePos) (i j : ℕ) : ℝ :=
  let a := s.getD i dNP
  let b := s.getD j dNP
  (a.sizeScale + b.sizeScale) + max (jsOrNum a.labelWidth 0) (jsOrNum b.labelWidth 0) / 2 + 8

/-- The clamped push-apart targets of the lightweight relaxation
(lines 416-420). -/
def relaxNewPos (width height : ℝ) (rnd2 : Rnd) (p i j : ℕ) (s : List NodePos) :
    (ℝ × ℝ) × (ℝ × ℝ) :=
  let a := s.getD i dNP
  let b := s.getD j dNP
  let dd := pairDxDyDist rnd2 p i j s
  let dx := dd.1
  let dy := dd.2.1
  let dist := dd.2.2
  let overlap := (relaxMinSep s i j - dist) / 2
  let nx := dx / (if dist = 0 then 1 else dist)
  let ny := dy / (if dist = 0 then 1 else dist)
  ((clampR pad (width - pad) (a.x - nx * overlap),
    clampR pad (height - pad) (a.y - ny * overlap)),
   (clampR pad (width - pad) (b.x + nx * overlap),
    clampR pad (height - pad) (b.y + ny * overlap)))

/-- One pair update of the lightweight relaxation (lines 409-422): unlike the
main resolver, `moved` is set unconditionally when the pair overlaps. -/
def relaxStep (width height : ℝ) (rnd2 : Rnd) (p i j : ℕ) (s : List NodePos) :
    List NodePos × Bool :=
  let a := s.getD i dNP
  let b := s.getD j dNP
  if (pairDxDyDist rnd2 p i j s).2.2 < relaxMinSep s i j then
    let q := relaxNewPos width height rnd2 p i j s
    ((s.set i { a with x := q.1.1, y := q.1.2 }).set j { b with x := q.2.1, y := q.2.2 },
      true)
  else (s, false)

def relaxFold (width height : ℝ) (rnd2 : Rnd) (p : ℕ)
    (acc : List NodePos × Bool) (ij : ℕ × ℕ) : List NodePos × Bool :=
  let r := relaxStep width height rnd2 p ij.1 ij.2 acc.1
  (r.1, acc.2 || r.2)

/-- One pass of the lightweight relaxation (lines 407-424). -/
def relaxPass (width height : ℝ) (pts : List Waypoint) (rnd2 : Rnd) (p : ℕ)
    (s : List NodePos) : List NodePos × Bool :=
  (pairsUpTo pts.length).foldl (relaxFold width height rnd2 p) (s, false)

/-- The 20-pass lightweight relaxation loop (lines 405-426). -/
def relaxLoop (width height : ℝ) (pts : List Waypoint) (rnd2 : Rnd) :
    ℕ → ℕ → List NodePos → List NodePos
  | 0, _, s => s
  | fuel + 1, p, s =>
    let r := relaxPass width height pts rnd2 p s
    if r.2 then relaxLoop width height pts rnd2 fuel (p + 1) r.1 else r.1

/-- The uniformBtn click handler's revert branch (lines 398-427): recompute
all positions from scratch, then run the lightweight relaxation. -/
def revertToGeographic (width height : ℝ) (measure : Measure) (pts : List Waypoint)
    (rnd2 : Rnd) (old : List NodePos) : List NodePos :=
  relaxLoop width height pts rnd2 20 0
    (computeAllPositionsState width height measure pts old)

/-- A 30-character name. -/
def nameA : String := "AAAAAAAAAAAAAAAAAAAAAAAAAAAAAA"

/-- A 30-character name. -/
def nameB : String := "BBBBBBBBBBBBBBBBBBBBBBBBBBBBBB"

/-- Two waypoints on the same meridian, about 222 km apart. -/
def ptsCex : List Waypoint := [⟨46, 10, nameA⟩, ⟨44, 10, nameB⟩]

/-- Text measurement unavailable (the catch branch / heuristic path). -/
def measH : Measure := fun _ _ => none

/-- A fixed random oracle (never consulted on the runs below: no pair ever
coincides). -/
def rnd0 : Rnd := fun _ _ _ => (0, 0)

/-- Node 0 of the counterexample route as computeAllPositions places it. -/
def cexP0 : NodePos := ⟨300, 64, nameA, 20, 24, 37, 360, 24⟩

/-- Node 1 of the counterexample route as computeAllPositions places it. -/
def cexP1 : NodePos := ⟨300, 308, nameB, 20, 24, 37, 360, 24⟩

/-- Node 0 after the first resolver pass pins it to the top padding. -/
def cexQ0 : NodePos := ⟨300, 40, nameA, 20, 24, 37, 360, 24⟩

/-- Node 1 after the first resolver pass pins it to the bottom padding. -/
def cexQ1 : NodePos := ⟨300, 360, nameB, 20, 24, 37, 360, 24⟩

/-- Pixel distance between two entries of nodePositions. -/
def pixelDist (s : List NodePos) (i j : ℕ) : ℝ :=
  jsHypot ((s.getD j dNP).x - (s.getD i dNP).x) ((s.getD j dNP).y - (s.getD i dNP).y)

/-- Two coincident waypoints (their haversine distance is 0). -/
def ptsPair : List Waypoint := [⟨0, 0, ""⟩, ⟨0, 0, ""⟩]

/-- Two far-apart node positions. -/
def sPair : List NodePos := [⟨40, 40, "1", 20, 8, 0, 0, 0⟩, ⟨560, 40, "2", 20, 8, 0, 0, 0⟩]

/-- The per-segment animation state captured by the `animateTo` closure
(lines 257-303): endpoints, current marker position, the duration computed at
segment start, and the mutable `start` timestamp anchor. -/
structure SegData where
  ax : ℝ
  ay : ℝ
  bx : ℝ
  by' : ℝ
  cx : ℝ
  cy : ℝ
  duration : ℝ
  start : Option ℝ

/-- Segment duration (lines 281-284): pixel distance scaled by 6, clamped to
[400, 6000] ms, divided by the speed at segment start. -/
def animDuration (apos bpos : ℝ × ℝ) (speed : ℝ) : ℝ :=
  max 400 (min 6000 (jsHypot (bpos.1 - apos.1) (bpos.2 - apos.2) * 6)) / speed

/-- The segment-animation state at the start of `animateTo(idx + 1)`:
`start` is null and the marker stands at the segment's start node. -/
def mkSeg (npos : ℕ → ℝ × ℝ) (speed : ℝ) (idx : ℕ) : SegData :=
  { ax := (npos idx).1, ay := (npos idx).2, bx := (npos (idx + 1)).1,
    by' := (npos (idx + 1)).2, cx := (npos idx).1, cy := (npos idx).2,
    duration := animDuration (npos idx) (npos (idx + 1)) speed, start := none }

/-- One execution of the per-frame callback `step(ts)` (lines 287-301):
when not playing, clear the start anchor, keep the marker, and schedule
another frame; otherwise anchor start, compute t from elapsed time, move the
marker, and schedule another frame exactly when t < 1. The Bool is whether
requestAnimationFrame was called again. The guard `if (!start) start = ts`
is a JS truthiness test: it re-anchors when the stored value is null AND
when it is the number 0 (a stored anchor of 0 never sticks). -/
def stepSeg (seg : SegData) (playing : Bool) (ts : ℝ) : SegData × Bool :=
  if playing = false then ({ seg with start := none }, true)
  else
    let st := if seg.start.getD 0 = 0 then ts else seg.start.getD 0
    let t := min 1 ((ts - st) / seg.duration)
    ({ seg with
        start := some st
        cx := seg.ax + (seg.bx - seg.ax) * t
        cy := seg.ay + (seg.by' - seg.ay) * t },
      if t < 1 then true else false)

/-- The frame-driven loop of one `animateTo` call: fold `stepSeg` over a
trace of (playing flag, timestamp) frames. -/
def runSeg (seg : SegData) : List (Bool × ℝ) → SegData
  | [] => seg
  | f :: rest => runSeg (stepSeg seg f.1 f.2).1 rest

/-- The playback controller phase: idle, a segment in flight, or the 250 ms
settle pause between segments. -/
inductive Phase where
  | idle : Phase
  | animating : SegData → Phase
  | settling : Phase

/-- The controller state (lines 247-252 and the playSequence locals). -/
structure Ctrl where
  playing : Bool
  speed : ℝ
  currentIndex : ℕ
  phase : Phase

/-- Events driving the controller: the play/pause button clicks
(lines 333-338), the speed slider input (line 254), a rendered frame, and the
expiry of the 250 ms inter-segment settle pause (line 328). -/
inductive Ev where
  | play : Ev
  | pause : Ev
  | speedInput : ℝ → Ev
  | frame : ℝ → Ev
  | settleDone : Ev

/-- One controller transition. play starts playSequence when not already
playing and not finished (lines 317-323, 333-337); pause clears the flag
(line 338); speedInput updates the live speed (line 254); a frame advances
the in-flight segment and, on completion (t = 1), commits
`currentIndex = next` and enters the settle pause (lines 325-328); the
settle expiry starts the next segment or ends the loop (lines 320-331). -/
def ctrlStep (n : ℕ) (npos : ℕ → ℝ × ℝ) (e : Ev) (s : Ctrl) : Ctrl :=
  match e with
  | .play =>
    if s.playing = false ∧ s.currentIndex < n - 1 then
      { s with playing := true, phase := .animating (mkSeg npos s.speed s.currentIndex) }
    else s
  | .pause => { s with playing := false }
  | .speedInput v => { s with speed := v }
  | .frame ts =>
    match s.phase with
    | .animating seg =>
      let r := stepSeg seg s.playing ts
      if r.2 then { s with phase := .animating r.1 }
      else { s with currentIndex := s.currentIndex + 1, phase := .settling }
    | _ => s
  | .settleDone =>
    match s.phase with
    | .settling =>
      if s.playing ∧ s.currentIndex < n - 1 then
        { s with phase := .animating (mkSeg npos s.speed s.currentIndex) }
      else { s with playing := false, phase := .idle }
    | _ => s

/-- Fold a list of events through the controller. -/
def runEvents (n : ℕ) (npos : ℕ → ℝ × ℝ) (evs : List Ev) (s : Ctrl) : Ctrl :=
  evs.foldl (fun s e => ctrlStep n npos e s) s

/-- The traveller marker's x while a segment is in flight. -/
def markerX (s : Ctrl) : ℝ :=
  match s.phase with
  | .animating seg => seg.cx
  | _ => 0

/-- A two-node layout: node 0 at (0,0), node 1 at (100,0). -/
def npos2 : ℕ → ℝ × ℝ := fun i => if i = 0 then (0, 0) else (100, 0)

/-- The idle initial controller state at speed 1. -/
def ctrl0 : Ctrl := ⟨false, 1, 0, Phase.idle⟩

/-- The segment 0 → 1 of `npos2` at its start (duration 600 ms). -/
def segK0 : SegData := ⟨0, 0, 100, 0, 0, 0, 600, none⟩

def segK1 : SegData := ⟨0, 0, 100, 0, 0, 0, 600, some 1000⟩

def segK2 : SegData := ⟨0, 0, 100, 0, 50, 0, 600, some 1000⟩

def segK3 : SegData := ⟨0, 0, 100, 0, 50, 0, 600, none⟩

def segK4 : SegData := ⟨0, 0, 100, 0, 0, 0, 600, some 1500⟩

def segK5 : SegData := ⟨0, 0, 100, 0, 75, 0, 600, some 1000⟩

def segK6 : SegData := ⟨0, 0, 100, 0, 100, 0, 600, some 1000⟩

/-- A defined JS field value by its ToNumber image under the unary `+`:
a number (or numeric string) gives `val q`; a present but unparseable value
gives `nan`. -/
inductive JNum where
  | val : ℚ → JNum
  | nan : JNum
deriving DecidableEq

/-- One record of `route_with_coords` / `coordinates`; `none` in a field
means the property is absent or undefined. -/
structure RawRec where
  lat : Option JNum
  lng : Option JNum
  latitude : Option JNum
  longitude : Option JNum
  location : Option String
  name : Option String
deriving DecidableEq

/-- The unary `+` coercion: `none` models NaN. -/
def jplus : JNum → Option ℚ
  | .val q => some q
  | .nan => none

/-- A normalized point; a `none` coordinate models NaN. -/
structure NormPoint where
  lat : Option ℚ
  lng : Option ℚ
  name : String
deriving DecidableEq

/-- JS string truthiness for the `a || b` chains on names. -/
def strTruthy : Option String → Option String
  | none => none
  | some s => if s = "" then none else some s

/-- The per-record normalization (lines 16-19): the {lat,lng,location} shape
first, then the {latitude,longitude,name} shape, else null. The guard only
tests that the fields are defined; `+field` is applied regardless of whether
it parses. -/
def normalizeRec (r : RawRec) : Option NormPoint :=
  if ¬r.lat = none ∧ ¬r.lng = none then
    some { lat := jplus (r.lat.getD JNum.nan), lng := jplus (r.lng.getD JNum.nan)
           name := ((strTruthy r.location).orElse fun _ => strTruthy r.name).getD "" }
  else if ¬r.latitude = none ∧ ¬r.longitude = none then
    some { lat := jplus (r.latitude.getD JNum.nan), lng := jplus (r.longitude.getD JNum.nan)
           name := (strTruthy r.name).getD "" }
  else none

/-- map-then-filter(Boolean) of lines 16-20. -/
def normalize (rs : List RawRec) : List NormPoint := (rs.map normalizeRec).filterMap id

/-- ROUTE_DATA as handed to the view-graph page. -/
structure RouteData where
  route_with_coords : Option (List RawRec)
  coordinates : Option (List RawRec)
deriving DecidableEq

/-- What the top-level script does before any layout or playback. -/
inductive RenderOutcome where
  | noData : RenderOutcome
  | emptyMsg : RenderOutcome
  | render : List NormPoint → RenderOutcome
deriving DecidableEq

/-- `ROUTE_DATA.route_with_coords || ROUTE_DATA.coordinates || []`
(line 16). -/
def pickCoords (rd : RouteData) : List RawRec :=
  (rd.route_with_coords.orElse fun _ => rd.coordinates).getD []

/-- The top-level control flow (lines 10-25): missing ROUTE_DATA and an
empty normalized list each show a message and return before any layout or
playback is attempted. -/
def runViz : Option RouteData → RenderOutcome
  | none => .noData
  | some rd =>
    let points := normalize (pickCoords rd)
    if points = [] then .emptyMsg else .render points

/-- The view-graph page state the uniformBtn click handler touches. -/
structure VizState where
  npos : List NodePos
  trav : ℝ × ℝ
  currentIndex : ℕ
  playing : Bool
  isUniform : Bool

/-- The uniformBtn click handler (lines 393-431): flip the mode; apply the
uniform layout (which repositions the traveller to node 0, lines 383-387)
or revert to the geographic layout and reposition the traveller to node 0
(lines 398-429). `currentIndex` and `playing` are untouched. -/
def uniformClick (width height : ℝ) (pts : List Waypoint) (simOut : ℕ → ℝ × ℝ)
    (measure : Measure) (rnd2 : Rnd) (S : VizState) : VizState :=
  let isU := !S.isUniform
  if isU then
    if pts.length ≤ 1 then { S with isUniform := isU }
    else
      let npos' := applyUniformLinkLayout width height pts simOut S.npos
      { S with
          isUniform := isU
          npos := npos'
          trav := if 0 < npos'.length then ((npos'.getD 0 dNP).x, (npos'.getD 0 dNP).y)
            else S.trav }
  else
    let npos' := revertToGeographic width height measure pts rnd2 S.npos
    { S with
        isUniform := isU
        npos := npos'
        trav := if 0 < npos'.length then ((npos'.getD 0 dNP).x, (npos'.getD 0 dNP).y)
          else S.trav }

/-! ### Theorems -/

/-! ### Facts about `jsAtan2` and `haversineKm` -/

theorem jsAtan2_sin_cos {θ : ℝ} (h1 : -π < θ) (h2 : θ ≤ π) :
    jsAtan2 (Real.sin θ) (Real.cos θ) = θ := by
  unfold jsAtan2
  rw [Complex.mk_eq_add_mul_I, Complex.ofReal_cos, Complex.ofReal_sin]
  exact Complex.arg_cos_add_sin_mul_I ⟨h1, h2⟩

theorem haversineKm_self (lat lon : ℝ) : haversineKm lat lon lat lon = 0 := by
  unfold haversineKm toRad
  simp [jsAtan2, Complex.mk_eq_add_mul_I]

theorem sqrt_sin_mul_sin {θ : ℝ} (h0 : 0 ≤ θ) (hπ : θ ≤ π) :
    Real.sqrt (Real.sin θ * Real.sin θ) = Real.sin θ :=
  Real.sqrt_mul_self (Real.sin_nonneg_of_nonneg_of_le_pi h0 hπ)

theorem sqrt_one_sub_sin_mul_sin {θ : ℝ} (h : 0 ≤ Real.cos θ) :
    Real.sqrt (1 - Real.sin θ * Real.sin θ) = Real.cos θ := by
  have hs : 1 - Real.sin θ * Real.sin θ = Real.cos θ * Real.cos θ := by
    have := Real.sin_sq_add_cos_sq θ
    nlinarith [this]
  rw [hs, Real.sqrt_mul_self h]

/-- Evaluation of the haversine for two points one degree of longitude apart
on the equator. -/
theorem haversineKm_equator_one_degree : haversineKm 0 0 0 1 = 6371 * (π / 180) := by
  have hφ0 : (0 : ℝ) ≤ π / 360 := by positivity
  have hφπ : π / 360 ≤ π := by nlinarith [Real.pi_pos]
  have hcos : 0 ≤ Real.cos (π / 360) := by
    apply Real.cos_nonneg_of_mem_Icc
    constructor
    · nlinarith [Real.pi_pos]
    · nlinarith [Real.pi_pos]
  show (6371 : ℝ) *
      (2 * jsAtan2
        (Real.sqrt (Real.sin ((0 - 0) * π / 180 / 2) * Real.sin ((0 - 0) * π / 180 / 2) +
          Real.cos (0 * π / 180) * Real.cos (0 * π / 180) *
            (Real.sin ((1 - 0) * π / 180 / 2) * Real.sin ((1 - 0) * π / 180 / 2))))
        (Real.sqrt (1 - (Real.sin ((0 - 0) * π / 180 / 2) * Real.sin ((0 - 0) * π / 180 / 2) +
          Real.cos (0 * π / 180) * Real.cos (0 * π / 180) *
            (Real.sin ((1 - 0) * π / 180 / 2) * Real.sin ((1 - 0) * π / 180 / 2)))))) =
      6371 * (π / 180)
  have ha : Real.sin ((0 - 0) * π / 180 / 2) * Real.sin ((0 - 0) * π / 180 / 2) +
      Real.cos (0 * π / 180) * Real.cos (0 * π / 180) *
        (Real.sin ((1 - 0) * π / 180 / 2) * Real.sin ((1 - 0) * π / 180 / 2)) =
      Real.sin (π / 360) * Real.sin (π / 360) := by
    rw [show (1 - 0 : ℝ) * π / 180 / 2 = π / 360 by ring,
      show (0 - 0 : ℝ) * π / 180 / 2 = 0 by ring, Real.sin_zero,
      show (0 : ℝ) * π / 180 = 0 by ring, Real.cos_zero]
    ring
  rw [ha, sqrt_sin_mul_sin hφ0 hφπ, sqrt_one_sub_sin_mul_sin hcos,
    jsAtan2_sin_cos (by nlinarith [Real.pi_pos]) (by nlinarith [Real.pi_pos])]
  ring

/-- Evaluation of the haversine for the two same-longitude waypoints
(46, 10) and (44, 10) used in the collision-resolution counterexamples. -/
theorem haversineKm_46_44 : haversineKm 46 10 44 10 = 6371 * (π / 90) := by
  have hθ0 : (0 : ℝ) ≤ π / 180 := by positivity
  have hθπ : π / 180 ≤ π := by nlinarith [Real.pi_pos]
  have hcos : 0 ≤ Real.cos (π / 180) := by
    apply Real.cos_nonneg_of_mem_Icc
    constructor
    · nlinarith [Real.pi_pos]
    · nlinarith [Real.pi_pos]
  show (6371 : ℝ) *
      (2 * jsAtan2
        (Real.sqrt (Real.sin ((44 - 46) * π / 180 / 2) * Real.sin ((44 - 46) * π / 180 / 2) +
          Real.cos (46 * π / 180) * Real.cos (44 * π / 180) *
            (Real.sin ((10 - 10) * π / 180 / 2) * Real.sin ((10 - 10) * π / 180 / 2))))
        (Real.sqrt (1 - (Real.sin ((44 - 46) * π / 180 / 2) * Real.sin ((44 - 46) * π / 180 / 2) +
          Real.cos (46 * π / 180) * Real.cos (44 * π / 180) *
            (Real.sin ((10 - 10) * π / 180 / 2) * Real.sin ((10 - 10) * π / 180 / 2)))))) =
      6371 * (π / 90)
  have ha : Real.sin ((44 - 46) * π / 180 / 2) * Real.sin ((44 - 46) * π / 180 / 2) +
      Real.cos (46 * π / 180) * Real.cos (44 * π / 180) *
        (Real.sin ((10 - 10) * π / 180 / 2) * Real.sin ((10 - 10) * π / 180 / 2)) =
      Real.sin (π / 180) * Real.sin (π / 180) := by
    rw [show (44 - 46 : ℝ) * π / 180 / 2 = -(π / 180) by ring,
      show (10 - 10 : ℝ) * π / 180 / 2 = 0 by ring, Real.sin_zero, Real.sin_neg]
    ring
  rw [ha, sqrt_sin_mul_sin hθ0 hθπ, sqrt_one_sub_sin_mul_sin hcos,
    jsAtan2_sin_cos (by nlinarith [Real.pi_pos]) (by nlinarith [Real.pi_pos])]
  ring

theorem haversineKm_46_44_lt_1000 : haversineKm 46 10 44 10 < 1000 := by
  rw [haversineKm_46_44]
  nlinarith [Real.pi_lt_d2]

/-- C4. The distance function between two coordinates implements the haversine
great-circle formula with Earth radius 6371 km: `haversineKm a a = 0` for every
coordinate `a`, the distance from (0,0) to (0,1°) is within 0.5% of 111.19 km,
and the optimize page's `calculateDistance` computes the very same function. -/
theorem haversine_distance_correct :
    (∀ lat lon : ℝ, haversineKm lat lon lat lon = 0) ∧
      |haversineKm 0 0 0 1 - 111.19| ≤ 111.19 * (0.5 / 100) ∧
      ∀ c1 c2 : Coord, calculateDistance c1 c2 =
        haversineKm c1.lat c1.lng c2.lat c2.lng := by
  refine ⟨haversineKm_self, ?_, ?_⟩
  · rw [haversineKm_equator_one_degree, abs_le]
    constructor
    · nlinarith [Real.pi_gt_d2]
    · nlinarith [Real.pi_lt_d2]
  · intro c1 c2
    rfl

theorem foldl_max_mono {a b : ℝ} (t : List ℝ) (h : a ≤ b) :
    t.foldl max a ≤ t.foldl max b := by
  induction t generalizing a b with
  | nil => exact h
  | cons c t ih => exact ih (max_le_max h le_rfl)

theorem foldl_min_le_foldl_max (t : List ℝ) (a : ℝ) : t.foldl min a ≤ t.foldl max a := by
  induction t generalizing a with
  | nil => exact le_rfl
  | cons b t ih =>
    exact le_trans (ih (min a b)) (foldl_max_mono t (le_trans (min_le_left a b) (le_max_left a b)))

theorem d3min_le_d3max {l : List ℝ} (h : l ≠ []) : d3min l ≤ d3max l := by
  cases l with
  | nil => exact absurd rfl h
  | cons a t => exact foldl_min_le_foldl_max t a

theorem expandDomain_fst_lt_snd {mn mx : ℝ} (h : mn ≤ mx) :
    (expandDomain mn mx).1 < (expandDomain mn mx).2 := by
  unfold expandDomain
  split_ifs with h1
  · simp only
    linarith
  · simp only
    rw [abs_of_nonneg (sub_nonneg.mpr h)] at h1
    have : (1e-6 : ℝ) ≤ mx - mn := not_lt.mp h1
    nlinarith

theorem lonTBounds_fst_lt_snd {pts : List Waypoint} (h : pts ≠ []) :
    (lonTBounds pts).1 < (lonTBounds pts).2 := by
  apply expandDomain_fst_lt_snd
  apply d3min_le_d3max
  simp [lonTrans, h]

theorem latTBounds_fst_lt_snd {pts : List Waypoint} (h : pts ≠ []) :
    (latTBounds pts).1 < (latTBounds pts).2 := by
  apply expandDomain_fst_lt_snd
  apply d3min_le_d3max
  simp [latTrans, h]

theorem linearScale_lt_of_lt {d0 d1 r0 r1 x1 x2 : ℝ} (hd : d0 < d1) (hr : r0 < r1)
    (hx : x1 < x2) : linearScale d0 d1 r0 r1 x1 < linearScale d0 d1 r0 r1 x2 := by
  have key : linearScale d0 d1 r0 r1 x2 - linearScale d0 d1 r0 r1 x1 =
      (x2 - x1) * ((r1 - r0) / (d1 - d0)) := by
    unfold linearScale
    ring
  have hpos : 0 < (x2 - x1) * ((r1 - r0) / (d1 - d0)) :=
    mul_pos (by linarith) (div_pos (by linarith) (by linarith))
  linarith

theorem linearScale_lt_of_gt {d0 d1 r0 r1 x1 x2 : ℝ} (hd : d1 < d0) (hr : r0 < r1)
    (hx : x1 < x2) : linearScale d0 d1 r0 r1 x2 < linearScale d0 d1 r0 r1 x1 := by
  have hne1 : d1 - d0 ≠ 0 := ne_of_lt (by linarith)
  have hne2 : d0 - d1 ≠ 0 := ne_of_gt (by linarith)
  have key : linearScale d0 d1 r0 r1 x1 - linearScale d0 d1 r0 r1 x2 =
      (x2 - x1) * ((r1 - r0) / (d0 - d1)) := by
    unfold linearScale
    field_simp
    ring
  have hpos : 0 < (x2 - x1) * ((r1 - r0) / (d0 - d1)) :=
    mul_pos (by linarith) (div_pos (by linarith) (by linarith))
  linarith

/-- C3. The coordinate projection is monotonic per axis: strictly increasing
in longitude for x, strictly decreasing in latitude for y (the vertical axis
is inverted); the degenerate-spread expansion keeps the scale domains
non-degenerate, so the claimed non-strict ordering always holds. -/
theorem projection_monotone (w h : ℝ) (pts : List Waypoint) (la lb ta tb : ℝ)
    (hne : pts ≠ []) (hw : 600 ≤ w) (hh : 400 ≤ h) (hlon : la < lb) (hlat : ta < tb) :
    xScale w pts la ≤ xScale w pts lb ∧ yScale h pts tb ≤ yScale h pts ta := by
  constructor
  · exact le_of_lt (linearScale_lt_of_lt (lonTBounds_fst_lt_snd hne)
      (by unfold pad; linarith) hlon)
  · exact le_of_lt (linearScale_lt_of_gt (latTBounds_fst_lt_snd hne)
      (by unfold pad; linarith) hlat)

/-- Closed instance of `projection_monotone` at a concrete input. -/
theorem projection_monotone_check :
    xScale 600 [⟨0, 0, "A"⟩] 0 ≤ xScale 600 [⟨0, 0, "A"⟩] 1 ∧
      yScale 400 [⟨0, 0, "A"⟩] 1 ≤ yScale 400 [⟨0, 0, "A"⟩] 0 :=
  projection_monotone 600 400 [⟨0, 0, "A"⟩] 0 1 0 1 (by simp) (by norm_num)
    (by norm_num) (by norm_num) (by norm_num)

theorem clampR_le {lo hi v : ℝ} (h : lo ≤ hi) : lo ≤ clampR lo hi v ∧ clampR lo hi v ≤ hi :=
  ⟨le_max_left _ _, max_le h (min_le_left _ _)⟩

theorem inBounds_set {width height : ℝ} {s : List NodePos} {i : ℕ} {q : NodePos}
    (hs : InBounds width height s)
    (hq : pad ≤ q.x ∧ q.x ≤ width - pad ∧ pad ≤ q.y ∧ q.y ≤ height - pad) :
    InBounds width height (s.set i q) := by
  intro r hr
  rcases List.mem_or_eq_of_mem_set hr with h1 | h2
  · exact hs r h1
  · rw [h2]
    exact hq

theorem sizeScaleOf_bounds (n : ℕ) : 8 ≤ sizeScaleOf n ∧ sizeScaleOf n ≤ 24 :=
  ⟨le_max_left _ _, max_le (by norm_num) (min_le_left _ _)⟩

theorem fontSizeOf_ge (n : ℕ) : 10 ≤ fontSizeOf n := le_max_left _ _

theorem bboxOf_nonneg {width : ℝ} {measure : Measure} (hm : MeasureNonneg measure)
    (hw : 600 ≤ width) (label : String) (fontSize : ℝ) :
    0 ≤ (bboxOf width measure label fontSize).1 ∧
      0 ≤ (bboxOf width measure label fontSize).2 := by
  unfold bboxOf
  cases hme : measure label fontSize with
  | some wh => exact hm label fontSize wh hme
  | none =>
    refine ⟨le_min (by unfold pad; linarith) ?_, le_rfl⟩
    have h6 : (6 : ℝ) ≤ max 6 (jsRound (fontSize * 0.6)) := le_max_left _ _
    have h0 : (0 : ℝ) ≤ (label.length : ℝ) := Nat.cast_nonneg _
    nlinarith

theorem labelWidthOf_bounds {width : ℝ} {measure : Measure} {pts : List Waypoint}
    (hm : MeasureNonneg measure) (hw : 600 ≤ width) (i : ℕ) :
    0 ≤ labelWidthOf width measure pts i ∧
      labelWidthOf width measure pts i ≤ width - 2 * pad := by
  unfold labelWidthOf
  exact ⟨le_min (by unfold pad; linarith) (bboxOf_nonneg hm hw _ _).1, min_le_left _ _⟩

theorem labelHeightOf_nonneg {width : ℝ} {measure : Measure} {pts : List Waypoint}
    (hm : MeasureNonneg measure) (hw : 600 ≤ width) (i : ℕ) :
    0 ≤ labelHeightOf width measure pts i := by
  unfold labelHeightOf jsOrNum
  split_ifs with h
  · linarith [fontSizeOf_ge pts.length]
  · exact (bboxOf_nonneg hm hw _ _).2

theorem computePos_inBounds {width height : ℝ} {measure : Measure} {pts : List Waypoint}
    (hw : 600 ≤ width) (hh : 400 ≤ height) (hm : MeasureNonneg measure) (i : ℕ) :
    pad ≤ (computePos width height measure pts i).x ∧
      (computePos width height measure pts i).x ≤ width - pad ∧
      pad ≤ (computePos width height measure pts i).y ∧
      (computePos width height measure pts i).y ≤ height - pad := by
  obtain ⟨hlw0, hlw1⟩ := @labelWidthOf_bounds width measure pts hm hw i
  have hlh0 := @labelHeightOf_nonneg width measure pts hm hw i
  obtain ⟨hss0, hss1⟩ := sizeScaleOf_bounds pts.length
  unfold computePos clampedXOf clampedYOf
  have hpad : pad = (40 : ℝ) := rfl
  refine ⟨?_, ?_, ?_, ?_⟩
  · exact le_trans (by linarith) (le_max_left _ _)
  · exact max_le (by linarith) (le_trans (min_le_left _ _) (by linarith))
  · exact le_trans (by linarith) (le_max_left _ _)
  · exact max_le (by linarith) (le_trans (min_le_left _ _) (by linarith))

theorem computeAllPositions_inBounds {width height : ℝ} {measure : Measure}
    {pts : List Waypoint} (hw : 600 ≤ width) (hh : 400 ≤ height)
    (hm : MeasureNonneg measure) :
    InBounds width height (computeAllPositions width height measure pts) := by
  intro q hq
  unfold computeAllPositions at hq
  obtain ⟨i, _, rfl⟩ := List.mem_map.mp hq
  exact computePos_inBounds hw hh hm i

theorem pairStepM_inBounds {width height : ℝ} {pts : List Waypoint} {rnd : Rnd}
    {p i j : ℕ} {s : List NodePos} (hw : 600 ≤ width) (hh : 400 ≤ height)
    (hs : InBounds width height s) :
    InBounds width height (pairStepM width height pts rnd p i j s).1 := by
  have hwp : pad ≤ width - pad := by unfold pad; linarith
  have hhp : pad ≤ height - pad := by unfold pad; linarith
  simp only [pairStepM]
  split_ifs <;>
    first
      | exact hs
      | exact inBounds_set (inBounds_set hs ⟨(clampR_le hwp).1, (clampR_le hwp).2,
          (clampR_le hhp).1, (clampR_le hhp).2⟩)
          ⟨(clampR_le hwp).1, (clampR_le hwp).2, (clampR_le hhp).1, (clampR_le hhp).2⟩

theorem foldl_flag_preserves {α β : Type} (P : α → Prop)
    (f : α × Bool → β → α × Bool)
    (hf : ∀ acc x, P acc.1 → P (f acc x).1) :
    ∀ (l : List β) (acc : α × Bool), P acc.1 → P (l.foldl f acc).1 := by
  intro l
  induction l with
  | nil => exact fun acc h => h
  | cons b t ih => exact fun acc h => ih (f acc b) (hf acc b h)

theorem onePass_inBounds {width height : ℝ} {pts : List Waypoint} {rnd : Rnd}
    {p : ℕ} {s : List NodePos} (hw : 600 ≤ width) (hh : 400 ≤ height)
    (hs : InBounds width height s) :
    InBounds width height (onePass width height pts rnd p s).1 := by
  unfold onePass
  refine foldl_flag_preserves (InBounds width height) (pairFold width height pts rnd p)
    (fun acc ij hacc => ?_) (pairsUpTo pts.length) (s, false) hs
  show InBounds width height (pairStepM width height pts rnd p ij.1 ij.2 acc.1).1
  exact pairStepM_inBounds hw hh hacc

theorem pairLoop_inBounds {width height : ℝ} {pts : List Waypoint} {rnd : Rnd}
    (hw : 600 ≤ width) (hh : 400 ≤ height) :
    ∀ (fuel p : ℕ) (s : List NodePos), InBounds width height s →
      InBounds width height (pairLoop width height pts rnd fuel p s).1 := by
  intro fuel
  induction fuel with
  | zero => exact fun p s hs => hs
  | succ fuel ih =>
    intro p s hs
    simp only [pairLoop]
    split_ifs with h
    · exact ih (p + 1) _ (onePass_inBounds hw hh hs)
    · exact onePass_inBounds hw hh hs

theorem collinStep_inBounds {width height : ℝ} {pts : List Waypoint}
    {ijk : ℕ × ℕ × ℕ} {s : List NodePos} (hw : 600 ≤ width) (hh : 400 ≤ height)
    (hs : InBounds width height s) :
    InBounds width height (collinStep width height pts ijk s).1 := by
  have hwp : pad ≤ width - pad := by unfold pad; linarith
  have hhp : pad ≤ height - pad := by unfold pad; linarith
  simp only [collinStep]
  split_ifs <;>
    first
      | exact hs
      | exact inBounds_set hs ⟨(clampR_le hwp).1, (clampR_le hwp).2,
          (clampR_le hhp).1, (clampR_le hhp).2⟩

theorem resolveCollinearity_inBounds {width height : ℝ} {pts : List Waypoint}
    {s : List NodePos} (hw : 600 ≤ width) (hh : 400 ≤ height)
    (hs : InBounds width height s) :
    InBounds width height (resolveCollinearity width height pts s).1 := by
  unfold resolveCollinearity
  refine foldl_flag_preserves (InBounds width height) (collinFold width height pts)
    (fun acc ijk hacc => ?_) (triplesUpTo pts.length) (s, false) hs
  show InBounds width height (collinStep width height pts ijk acc.1).1
  exact collinStep_inBounds hw hh hacc

theorem collinLoop_inBounds {width height : ℝ} {pts : List Waypoint}
    (hw : 600 ≤ width) (hh : 400 ≤ height) :
    ∀ (fuel : ℕ) (s : List NodePos), InBounds width height s →
      InBounds width height (collinLoop width height pts fuel s) := by
  intro fuel
  induction fuel with
  | zero => exact fun s hs => hs
  | succ fuel ih =>
    intro s hs
    simp only [collinLoop]
    split_ifs with h
    · exact ih _ (resolveCollinearity_inBounds hw hh hs)
    · exact resolveCollinearity_inBounds hw hh hs

theorem resolveCollisions_inBounds {width height : ℝ} {pts : List Waypoint}
    {rnd : Rnd} {s : List NodePos} (hw : 600 ≤ width) (hh : 400 ≤ height)
    (hs : InBounds width height s) :
    InBounds width height (resolveCollisions width height pts rnd s) := by
  unfold resolveCollisions
  exact collinLoop_inBounds hw hh 6 _ (pairLoop_inBounds hw hh 25 0 s hs)

theorem applyUniformLinkLayout_inBounds {width height : ℝ} {pts : List Waypoint}
    {simOut : ℕ → ℝ × ℝ} {s : List NodePos} (hw : 600 ≤ width) (hh : 400 ≤ height)
    (hs : InBounds width height s) :
    InBounds width height (applyUniformLinkLayout width height pts simOut s) := by
  have hwp : pad ≤ width - pad := by unfold pad; linarith
  have hhp : pad ≤ height - pad := by unfold pad; linarith
  unfold applyUniformLinkLayout
  split_ifs with h
  · exact hs
  · have : ∀ (l : List ℕ) (acc : List NodePos), InBounds width height acc →
        InBounds width height (l.foldl
          (fun acc i => acc.set i (uniformMerge width height pts simOut s i)) acc) := by
      intro l
      induction l with
      | nil => exact fun acc h => h
      | cons b t ih =>
        intro acc hacc
        exact ih _ (inBounds_set hacc ⟨(clampR_le hwp).1, (clampR_le hwp).2,
          (clampR_le hhp).1, (clampR_le hhp).2⟩)
    exact this _ s hs

/-- C1. After layout resolution completes in either mode — the geographic
collision/collinearity resolver, or the uniform-edge-length force layout
applied on top of it (the load-time sequence of the source) — every node
position satisfies pad ≤ x ≤ width − pad and pad ≤ y ≤ height − pad, for
every non-empty input point list. -/
theorem layout_bounds_invariant (width height : ℝ) (measure : Measure)
    (pts : List Waypoint) (rnd : Rnd) (simOut : ℕ → ℝ × ℝ)
    (hw : 600 ≤ width) (hh : 400 ≤ height) (hm : MeasureNonneg measure)
    (hne : pts ≠ []) :
    InBounds width height
      (resolveCollisions width height pts rnd (computeAllPositions width height measure pts)) ∧
    InBounds width height
      (applyUniformLinkLayout width height pts simOut
        (resolveCollisions width height pts rnd (computeAllPositions width height measure pts))) := by
  have hgeo : InBounds width height
      (resolveCollisions width height pts rnd (computeAllPositions width height measure pts)) :=
    resolveCollisions_inBounds hw hh (computeAllPositions_inBounds hw hh hm)
  exact ⟨hgeo, applyUniformLinkLayout_inBounds hw hh hgeo⟩

/-! ### Early exit of the pairwise phase (claim C2) -/

theorem set_getD_eq {α : Type} (d : α) : ∀ (l : List α) (i : ℕ), l.set i (l.getD i d) = l := by
  intro l
  induction l with
  | nil => intro i; rfl
  | cons a t ih =>
    intro i
    cases i with
    | zero => rw [List.getD_cons_zero]; rfl
    | succ n =>
      rw [List.getD_cons_succ]
      show a :: t.set n (t.getD n d) = a :: t
      rw [ih n]

/-- A pair update that reports `moved = false` left the state unchanged. -/
theorem pairStepM_eq_of_not_moved {width height : ℝ} {pts : List Waypoint} {rnd : Rnd}
    {p i j : ℕ} {s s' : List NodePos}
    (h : pairStepM width height pts rnd p i j s = (s', false)) : s' = s := by
  simp only [pairStepM] at h
  split_ifs at h with h1 h2
  · obtain ⟨hc1, hc2, hc3, hc4⟩ := h2
    rw [Prod.mk.injEq] at h
    rw [← h.1, hc1, hc2, hc3, hc4]
    show (s.set i (s.getD i dNP)).set j (s.getD j dNP) = s
    rw [set_getD_eq dNP s i, set_getD_eq dNP s j]
  · rw [Prod.mk.injEq] at h
    exact absurd h.2 (by simp)
  · rw [Prod.mk.injEq] at h
    exact h.1.symm

/-- Once the moved flag is set, the rest of the pass keeps it set. -/
theorem pairFold_flag_true {width height : ℝ} {pts : List Waypoint} {rnd : Rnd} {p : ℕ} :
    ∀ (l : List (ℕ × ℕ)) (s : List NodePos),
      (l.foldl (pairFold width height pts rnd p) (s, true)).2 = true := by
  intro l
  induction l with
  | nil => intro s; rfl
  | cons ij t ih =>
    intro s
    show (t.foldl (pairFold width height pts rnd p)
      ((pairStepM width height pts rnd p ij.1 ij.2 s).1,
        true || (pairStepM width height pts rnd p ij.1 ij.2 s).2)).2 = true
    rw [Bool.true_or]
    exact ih _

/-- A pass that ends with `moved = false` changed nothing, and every pair's
update at the (unchanged) state is a no-op. -/
theorem pairPass_false {width height : ℝ} {pts : List Waypoint} {rnd : Rnd} {p : ℕ} :
    ∀ (l : List (ℕ × ℕ)) (s s' : List NodePos),
      l.foldl (pairFold width height pts rnd p) (s, false) = (s', false) →
      s' = s ∧ ∀ ij ∈ l, pairStepM width height pts rnd p ij.1 ij.2 s = (s, false) := by
  intro l
  induction l with
  | nil =>
    intro s s' h
    rw [List.foldl_nil, Prod.mk.injEq] at h
    exact ⟨h.1.symm, by simp⟩
  | cons ij t ih =>
    intro s s' h
    rw [List.foldl_cons] at h
    rcases hr : pairStepM width height pts rnd p ij.1 ij.2 s with ⟨s1, m⟩
    have hfold : pairFold width height pts rnd p (s, false) ij = (s1, m) := by
      show ((pairStepM width height pts rnd p ij.1 ij.2 s).1,
        false || (pairStepM width height pts rnd p ij.1 ij.2 s).2) = (s1, m)
      rw [hr, Bool.false_or]
    rw [hfold] at h
    cases m with
    | true =>
      have := @pairFold_flag_true width height pts rnd p t s1
      rw [h] at this
      exact absurd this (by simp)
    | false =>
      have hs1 : s1 = s := pairStepM_eq_of_not_moved hr
      rw [hs1] at h
      obtain ⟨h1, h2⟩ := ih s s' h
      refine ⟨h1, ?_⟩
      intro kl hkl
      rcases List.mem_cons.mp hkl with hkl | hkl
      · rw [hkl]
        rw [hs1] at hr
        exact hr
      · exact h2 kl hkl

/-- When the pairwise loop exits early, the final state is a fixpoint of a
full pass at the recorded pass index. -/
theorem pairLoop_early_fixpoint {width height : ℝ} {pts : List Waypoint} {rnd : Rnd} :
    ∀ (fuel p : ℕ) (s S : List NodePos) (q : ℕ),
      pairLoop width height pts rnd fuel p s = (S, q, true) →
      onePass width height pts rnd q S = (S, false) := by
  intro fuel
  induction fuel with
  | zero =>
    intro p s S q h
    simp only [pairLoop, Prod.mk.injEq] at h
    exact absurd h.2.2 (by simp)
  | succ fuel ih =>
    intro p s S q h
    simp only [pairLoop] at h
    rcases hr : onePass width height pts rnd p s with ⟨s1, m⟩
    rw [hr] at h
    cases m with
    | true =>
      simp only [if_true] at h
      exact ih (p + 1) s1 S q h
    | false =>
      simp only [Bool.false_eq_true, if_false, Prod.mk.injEq] at h
      obtain ⟨hS, hq, _⟩ := h
      have hr' : (pairsUpTo pts.length).foldl (pairFold width height pts rnd p) (s, false) =
          (s1, false) := by
        unfold onePass at hr
        exact hr
      have hfix : s1 = s := (pairPass_false (pairsUpTo pts.length) s s1 hr').1
      rw [← hS, ← hq, hfix]
      rw [hfix] at hr
      exact hr

/-- C2 (amended). When the pairwise-separation phase of the resolver exits
early (before the 25-pass budget is exhausted), every pair (i, j) of the
final state is either separated by at least its computed minimum separation,
or its clamped push-apart update is a no-op (both nodes pinned by the canvas
clamp), so the pairwise phase ends at a fixpoint; the original claim's
unconditional separation bound does not hold (see the counterexample). -/
theorem pairwise_separation_on_completion (width height : ℝ) (pts : List Waypoint)
    (rnd : Rnd) (s0 S : List NodePos) (q i j : ℕ)
    (hrun : pairLoop width height pts rnd 25 0 s0 = (S, q, true))
    (hij : (i, j) ∈ pairsUpTo pts.length) :
    minSepOf pts S i j ≤ (pairDxDyDist rnd q i j S).2.2 ∨
      pairStepM width height pts rnd q i j S = (S, false) := by
  right
  have hfix := pairLoop_early_fixpoint 25 0 s0 S q hrun
  unfold onePass at hfix
  exact (pairPass_false (pairsUpTo pts.length) S S hfix).2 (i, j) hij

/-! ### Revert to geographic mode (part_000 lines 398-429, claim C5) -/

theorem getD_set_self {α : Type} (l : List α) (i : ℕ) (v d : α) (h : i < l.length) :
    (l.set i v).getD i d = v := by
  simp [h]

theorem getD_set_ne {α : Type} (l : List α) {i k : ℕ} (h : k ≠ i) (v d : α) :
    (l.set k v).getD i d = l.getD i d := by
  simp [List.getElem?_set_ne h]

theorem foldl_set_length {α : Type} (g : ℕ → α) :
    ∀ (l : List ℕ) (acc : List α),
      (l.foldl (fun a k => a.set k (g k)) acc).length = acc.length := by
  intro l
  induction l with
  | nil => intro acc; rfl
  | cons k t ih =>
    intro acc
    rw [List.foldl_cons, ih]
    exact List.length_set acc k (g k)

theorem foldl_set_getD {α : Type} (d : α) (g : ℕ → α) :
    ∀ (l : List ℕ) (acc : List α) (i : ℕ), i < acc.length →
      (l.foldl (fun a k => a.set k (g k)) acc).getD i d =
        if i ∈ l then g i else acc.getD i d := by
  intro l
  induction l with
  | nil => intro acc i hi; simp
  | cons k t ih =>
    intro acc i hi
    rw [List.foldl_cons, ih (acc.set k (g k)) i (by rw [List.length_set]; exact hi)]
    by_cases hmem : i ∈ t
    · simp [hmem]
    · by_cases hik : i = k
      · subst hik
        simp [hmem, List.getElem?_set_self hi]
      · simp [hmem, hik, List.getElem?_set_ne (fun hc : k = i => hik hc.symm)]

/-- Rerunning computeAllPositions over any array of the right length yields
exactly the fresh computation: the rerun discards the previous positions. -/
theorem computeAllPositionsState_eq (width height : ℝ) (measure : Measure)
    (pts : List Waypoint) (old : List NodePos) (h : old.length = pts.length) :
    computeAllPositionsState width height measure pts old =
      computeAllPositions width height measure pts := by
  have hlen : (computeAllPositionsState width height measure pts old).length =
      pts.length := by
    unfold computeAllPositionsState
    rw [foldl_set_length, h]
  have hlen2 : (computeAllPositions width height measure pts).length = pts.length := by
    unfold computeAllPositions
    simp
  apply List.ext_getElem (by rw [hlen, hlen2])
  intro i hi1 hi2
  have hi : i < pts.length := by rw [hlen] at hi1; exact hi1
  have e1 : (computeAllPositionsState width height measure pts old).getD i dNP =
      computePos width height measure pts i := by
    unfold computeAllPositionsState
    rw [foldl_set_getD dNP (computePos width height measure pts) (List.range pts.length)
      old i (by rw [h]; exact hi)]
    simp [List.mem_range, hi]
  have e2 : (computeAllPositions width height measure pts).getD i dNP =
      computePos width height measure pts i := by
    unfold computeAllPositions
    rw [List.getD_eq_getElem?_getD]
    rw [List.getElem?_map, List.getElem?_range hi]
    rfl
  rw [← List.getD_eq_getElem (computeAllPositionsState width height measure pts old) dNP hi1,
    ← List.getD_eq_getElem (computeAllPositions width height measure pts) dNP hi2, e1, e2]

/-- C5 (amended). Toggling back to geographic mode discards the current
(simulation) positions — the reverted layout is the same for any pre-toggle
state of the right length, being recomputed from scratch by projection and
label metrics — but what then runs is only a lightweight 20-pass pairwise
relaxation without the proximity factor and without collinearity correction,
so the reverted positions need not equal the initial geographic layout. -/
theorem revert_discards_positions (width height : ℝ) (measure : Measure)
    (pts : List Waypoint) (rnd2 : Rnd) (old1 old2 : List NodePos)
    (h1 : old1.length = pts.length) (h2 : old2.length = pts.length) :
    revertToGeographic width height measure pts rnd2 old1 =
      revertToGeographic width height measure pts rnd2 old2 ∧
    revertToGeographic width height measure pts rnd2 old1 =
      relaxLoop width height pts rnd2 20 0 (computeAllPositions width height measure pts) := by
  unfold revertToGeographic
  rw [computeAllPositionsState_eq width height measure pts old1 h1,
    computeAllPositionsState_eq width height measure pts old2 h2]
  exact ⟨rfl, rfl⟩

/-- Closed instance of `revert_discards_positions` at a concrete input. -/
theorem revert_discards_positions_check :
    revertToGeographic 600 400 (fun _ _ => none) [⟨0, 0, "A"⟩] (fun _ _ _ => (0, 0)) [dNP] =
      revertToGeographic 600 400 (fun _ _ => none) [⟨0, 0, "A"⟩] (fun _ _ _ => (0, 0))
        [⟨1, 2, "x", 3, 4, 5, 6, 7⟩] ∧
    revertToGeographic 600 400 (fun _ _ => none) [⟨0, 0, "A"⟩] (fun _ _ _ => (0, 0)) [dNP] =
      relaxLoop 600 400 [⟨0, 0, "A"⟩] (fun _ _ _ => (0, 0)) 20 0
        (computeAllPositions 600 400 (fun _ _ => none) [⟨0, 0, "A"⟩]) :=
  revert_discards_positions 600 400 (fun _ _ => none) [⟨0, 0, "A"⟩] (fun _ _ _ => (0, 0))
    [dNP] [⟨1, 2, "x", 3, 4, 5, 6, 7⟩] (by simp) (by simp)

/-! ### Concrete pipeline evaluation: two nearby same-longitude waypoints -/

theorem jsHypot_eval {x y r : ℝ} (h : x ^ 2 + y ^ 2 = r ^ 2) (hr : 0 ≤ r) :
    jsHypot x y = r := by
  unfold jsHypot
  rw [h, Real.sqrt_sq hr]

theorem sizeScaleOf_two : sizeScaleOf 2 = 24 := by
  unfold sizeScaleOf jsRound
  norm_num

theorem fontSizeOf_two : fontSizeOf 2 = 20 := by
  unfold fontSizeOf jsRound
  rw [sizeScaleOf_two]
  norm_num

theorem labelOf_zero_cex : labelOf 0 (ptsCex.getD 0 wDflt) = nameA := by
  have hlen : nameA.length = 30 := by decide
  unfold ptsCex labelOf
  simp [hlen]

theorem labelOf_one_cex : labelOf 1 (ptsCex.getD 1 wDflt) = nameB := by
  have hlen : nameB.length = 30 := by decide
  unfold ptsCex labelOf
  simp [hlen]

theorem labelWidthOf_cex_zero : labelWidthOf 600 measH ptsCex 0 = 360 := by
  unfold labelWidthOf
  rw [labelOf_zero_cex]
  show min (600 - 2 * pad) (bboxOf 600 measH nameA (fontSizeOf ptsCex.length)).1 = 360
  have hlen : ptsCex.length = 2 := rfl
  rw [hlen, fontSizeOf_two]
  unfold bboxOf measH jsRound pad
  have h30n : nameA.length = 30 := by decide
  have h30 : (nameA.length : ℝ) = 30 := by exact_mod_cast h30n
  simp only [h30]
  norm_num

theorem labelWidthOf_cex_one : labelWidthOf 600 measH ptsCex 1 = 360 := by
  unfold labelWidthOf
  rw [labelOf_one_cex]
  show min (600 - 2 * pad) (bboxOf 600 measH nameB (fontSizeOf ptsCex.length)).1 = 360
  have hlen : ptsCex.length = 2 := rfl
  rw [hlen, fontSizeOf_two]
  unfold bboxOf measH jsRound pad
  have h30n : nameB.length = 30 := by decide
  have h30 : (nameB.length : ℝ) = 30 := by exact_mod_cast h30n
  simp only [h30]
  norm_num

theorem labelHeightOf_cex_zero : labelHeightOf 600 measH ptsCex 0 = 24 := by
  unfold labelHeightOf
  rw [labelOf_zero_cex]
  show jsOrNum (bboxOf 600 measH nameA (fontSizeOf ptsCex.length)).2
    (fontSizeOf ptsCex.length + 4) = 24
  have hlen : ptsCex.length = 2 := rfl
  rw [hlen, fontSizeOf_two]
  unfold bboxOf measH jsOrNum
  norm_num

theorem labelHeightOf_cex_one : labelHeightOf 600 measH ptsCex 1 = 24 := by
  unfold labelHeightOf
  rw [labelOf_one_cex]
  show jsOrNum (bboxOf 600 measH nameB (fontSizeOf ptsCex.length)).2
    (fontSizeOf ptsCex.length + 4) = 24
  have hlen : ptsCex.length = 2 := rfl
  rw [hlen, fontSizeOf_two]
  unfold bboxOf measH jsOrNum
  norm_num

theorem lonBounds_cex : lonBounds ptsCex = (9.5, 10.5) := by
  have hmap : ptsCex.map Waypoint.lng = [10, 10] := rfl
  unfold lonBounds
  rw [hmap]
  unfold d3min d3max expandDomain
  norm_num

theorem lonCenter_cex : lonCenter ptsCex = 10 := by
  unfold lonCenter
  rw [lonBounds_cex]
  norm_num

theorem compress_cex_lon : compress (lonCenter ptsCex) 10 = 10 := by
  rw [lonCenter_cex]
  unfold compress jsSign
  norm_num

theorem lonTBounds_cex : lonTBounds ptsCex = (9.5, 10.5) := by
  have hlt : lonTrans ptsCex =
      [compress (lonCenter ptsCex) 10, compress (lonCenter ptsCex) 10] := rfl
  unfold lonTBounds
  rw [hlt, compress_cex_lon]
  unfold d3min d3max expandDomain
  norm_num

theorem xScale_cex : xScale 600 ptsCex 10 = 300 := by
  unfold xScale linearScale pad
  rw [lonTBounds_cex]
  norm_num

theorem latBounds_cex : latBounds ptsCex = (44, 46) := by
  have hmap : ptsCex.map Waypoint.lat = [46, 44] := rfl
  unfold latBounds
  rw [hmap]
  unfold d3min d3max expandDomain
  norm_num

theorem latCenter_cex : latCenter ptsCex = 45 := by
  unfold latCenter
  rw [latBounds_cex]
  norm_num

theorem compress_cex_46 : compress (latCenter ptsCex) 46 = 46 := by
  rw [latCenter_cex]
  unfold compress jsSign
  rw [show |(46 : ℝ) - 45| = 1 by norm_num, Real.one_rpow]
  norm_num

theorem compress_cex_44 : compress (latCenter ptsCex) 44 = 44 := by
  rw [latCenter_cex]
  unfold compress jsSign
  rw [show |(44 : ℝ) - 45| = 1 by norm_num, Real.one_rpow]
  norm_num

theorem latTBounds_cex : latTBounds ptsCex = (44, 46) := by
  have hlt : latTrans ptsCex =
      [compress (latCenter ptsCex) 46, compress (latCenter ptsCex) 44] := rfl
  unfold latTBounds
  rw [hlt, compress_cex_46, compress_cex_44]
  unfold d3min d3max expandDomain
  norm_num

theorem yScale_cex_46 : yScale 400 ptsCex 46 = 40 := by
  unfold yScale linearScale pad
  rw [latTBounds_cex]
  norm_num

theorem yScale_cex_44 : yScale 400 ptsCex 44 = 360 := by
  unfold yScale linearScale pad
  rw [latTBounds_cex]
  norm_num

theorem clampedX_cex_zero : clampedXOf 600 measH ptsCex 0 = 300 := by
  unfold clampedXOf
  rw [labelWidthOf_cex_zero]
  rw [show (ptsCex.getD 0 wDflt).lng = 10 from rfl, xScale_cex]
  unfold pad
  norm_num

theorem clampedX_cex_one : clampedXOf 600 measH ptsCex 1 = 300 := by
  unfold clampedXOf
  rw [labelWidthOf_cex_one]
  rw [show (ptsCex.getD 1 wDflt).lng = 10 from rfl, xScale_cex]
  unfold pad
  norm_num

theorem clampedY_cex_zero : clampedYOf 600 400 measH ptsCex 0 = 64 := by
  unfold clampedYOf
  rw [labelHeightOf_cex_zero]
  rw [show (ptsCex.getD 0 wDflt).lat = 46 from rfl, yScale_cex_46]
  rw [show sizeScaleOf ptsCex.length = 24 from sizeScaleOf_two]
  unfold pad
  norm_num

theorem clampedY_cex_one : clampedYOf 600 400 measH ptsCex 1 = 308 := by
  unfold clampedYOf
  rw [labelHeightOf_cex_one]
  rw [show (ptsCex.getD 1 wDflt).lat = 44 from rfl, yScale_cex_44]
  rw [show sizeScaleOf ptsCex.length = 24 from sizeScaleOf_two]
  unfold pad
  norm_num

theorem labelY_cex_zero : labelYOf 600 400 measH ptsCex 0 = 37 := by
  unfold labelYOf
  rw [show sizeScaleOf ptsCex.length = 24 from sizeScaleOf_two,
    show fontSizeOf ptsCex.length = 20 from fontSizeOf_two, clampedY_cex_zero]
  unfold jsRound pad
  norm_num

theorem labelY_cex_one : labelYOf 600 400 measH ptsCex 1 = 37 := by
  unfold labelYOf
  rw [show sizeScaleOf ptsCex.length = 24 from sizeScaleOf_two,
    show fontSizeOf ptsCex.length = 20 from fontSizeOf_two, clampedY_cex_one]
  unfold jsRound pad
  norm_num

theorem computePos_cex_zero : computePos 600 400 measH ptsCex 0 = cexP0 := by
  unfold computePos cexP0
  rw [NodePos.mk.injEq]
  exact ⟨clampedX_cex_zero, clampedY_cex_zero, labelOf_zero_cex, fontSizeOf_two,
    sizeScaleOf_two, labelY_cex_zero, labelWidthOf_cex_zero, labelHeightOf_cex_zero⟩

theorem computePos_cex_one : computePos 600 400 measH ptsCex 1 = cexP1 := by
  unfold computePos cexP1
  rw [NodePos.mk.injEq]
  exact ⟨clampedX_cex_one, clampedY_cex_one, labelOf_one_cex, fontSizeOf_two,
    sizeScaleOf_two, labelY_cex_one, labelWidthOf_cex_one, labelHeightOf_cex_one⟩

theorem computeAll_cex : computeAllPositions 600 400 measH ptsCex = [cexP0, cexP1] := by
  show [computePos 600 400 measH ptsCex 0, computePos 600 400 measH ptsCex 1] =
    [cexP0, cexP1]
  rw [computePos_cex_zero, computePos_cex_one]

theorem pairLoop_succ (width height : ℝ) (pts : List Waypoint) (rnd : Rnd)
    (fuel p : ℕ) (s : List NodePos) :
    pairLoop width height pts rnd (fuel + 1) p s =
      if (onePass width height pts rnd p s).2 then
        pairLoop width height pts rnd fuel (p + 1) (onePass width height pts rnd p s).1
      else ((onePass width height pts rnd p s).1, p, true) := rfl

theorem collinLoop_succ (width height : ℝ) (pts : List Waypoint)
    (fuel : ℕ) (s : List NodePos) :
    collinLoop width height pts (fuel + 1) s =
      if (resolveCollinearity width height pts s).2 then
        collinLoop width height pts fuel (resolveCollinearity width height pts s).1
      else (resolveCollinearity width height pts s).1 := rfl

theorem relaxLoop_succ (width height : ℝ) (pts : List Waypoint) (rnd2 : Rnd)
    (fuel p : ℕ) (s : List NodePos) :
    relaxLoop width height pts rnd2 (fuel + 1) p s =
      if (relaxPass width height pts rnd2 p s).2 then
        relaxLoop width height pts rnd2 fuel (p + 1) (relaxPass width height pts rnd2 p s).1
      else (relaxPass width height pts rnd2 p s).1 := rfl

theorem jsHypot_0_244 : jsHypot 0 244 = 244 := jsHypot_eval (by norm_num) (by norm_num)

theorem jsHypot_0_320 : jsHypot 0 320 = 320 := jsHypot_eval (by norm_num) (by norm_num)

theorem dd_cex_pass0 : pairDxDyDist rnd0 0 0 1 [cexP0, cexP1] = (0, 244, 244) := by
  unfold pairDxDyDist cexP0 cexP1
  simp only [List.getD_cons_zero, List.getD_cons_succ]
  norm_num [jsHypot_0_244]

theorem dd_cex_pass1 : pairDxDyDist rnd0 1 0 1 [cexQ0, cexQ1] = (0, 320, 320) := by
  unfold pairDxDyDist cexQ0 cexQ1
  simp only [List.getD_cons_zero, List.getD_cons_succ]
  norm_num [jsHypot_0_320]

theorem minSep_cex_P : minSepOf ptsCex [cexP0, cexP1] 0 1 = 377.6 := by
  simp only [minSepOf, ptsCex, cexP0, cexP1, List.getD_cons_zero, List.getD_cons_succ]
  rw [if_pos haversineKm_46_44_lt_1000]
  unfold jsOrNum
  norm_num

theorem minSep_cex_Q : minSepOf ptsCex [cexQ0, cexQ1] 0 1 = 377.6 := by
  simp only [minSepOf, ptsCex, cexQ0, cexQ1, List.getD_cons_zero, List.getD_cons_succ]
  rw [if_pos haversineKm_46_44_lt_1000]
  unfold jsOrNum
  norm_num

theorem newpos_cex_pass0 :
    pairNewPos 600 400 ptsCex rnd0 0 0 1 [cexP0, cexP1] = ((300, 40), (300, 360)) := by
  unfold pairNewPos
  rw [dd_cex_pass0, minSep_cex_P]
  simp only [cexP0, cexP1, List.getD_cons_zero, List.getD_cons_succ]
  unfold clampR pad
  norm_num

theorem newpos_cex_pass1 :
    pairNewPos 600 400 ptsCex rnd0 1 0 1 [cexQ0, cexQ1] = ((300, 40), (300, 360)) := by
  unfold pairNewPos
  rw [dd_cex_pass1, minSep_cex_Q]
  simp only [cexQ0, cexQ1, List.getD_cons_zero, List.getD_cons_succ]
  unfold clampR pad
  norm_num

theorem step_cex_pass0 :
    pairStepM 600 400 ptsCex rnd0 0 0 1 [cexP0, cexP1] = ([cexQ0, cexQ1], true) := by
  unfold pairStepM
  rw [dd_cex_pass0, minSep_cex_P, newpos_cex_pass0]
  rw [if_pos (show ((0:ℝ), (244:ℝ), (244:ℝ)).2.2 < 377.6 by norm_num)]
  simp only [cexP0, cexP1, cexQ0, cexQ1, List.getD_cons_zero, List.getD_cons_succ,
    List.set]
  norm_num

theorem step_cex_pass1 :
    pairStepM 600 400 ptsCex rnd0 1 0 1 [cexQ0, cexQ1] = ([cexQ0, cexQ1], false) := by
  unfold pairStepM
  rw [dd_cex_pass1, minSep_cex_Q, newpos_cex_pass1]
  rw [if_pos (show ((0:ℝ), (320:ℝ), (320:ℝ)).2.2 < 377.6 by norm_num)]
  simp only [cexQ0, cexQ1, List.getD_cons_zero, List.getD_cons_succ, List.set]
  norm_num

theorem onePass_cex_0 :
    onePass 600 400 ptsCex rnd0 0 [cexP0, cexP1] = ([cexQ0, cexQ1], true) := by
  unfold onePass
  rw [show pairsUpTo ptsCex.length = [(0, 1)] from rfl, List.foldl_cons, List.foldl_nil]
  show ((pairStepM 600 400 ptsCex rnd0 0 0 1 [cexP0, cexP1]).1,
    false || (pairStepM 600 400 ptsCex rnd0 0 0 1 [cexP0, cexP1]).2) = ([cexQ0, cexQ1], true)
  rw [step_cex_pass0]
  rfl

theorem onePass_cex_1 :
    onePass 600 400 ptsCex rnd0 1 [cexQ0, cexQ1] = ([cexQ0, cexQ1], false) := by
  unfold onePass
  rw [show pairsUpTo ptsCex.length = [(0, 1)] from rfl, List.foldl_cons, List.foldl_nil]
  show ((pairStepM 600 400 ptsCex rnd0 1 0 1 [cexQ0, cexQ1]).1,
    false || (pairStepM 600 400 ptsCex rnd0 1 0 1 [cexQ0, cexQ1]).2) = ([cexQ0, cexQ1], false)
  rw [step_cex_pass1]
  rfl

theorem pairLoop_cex :
    pairLoop 600 400 ptsCex rnd0 25 0 [cexP0, cexP1] = ([cexQ0, cexQ1], 1, true) := by
  rw [show (25 : ℕ) = 24 + 1 from rfl, pairLoop_succ, onePass_cex_0]
  show pairLoop 600 400 ptsCex rnd0 24 1 [cexQ0, cexQ1] = ([cexQ0, cexQ1], 1, true)
  rw [show (24 : ℕ) = 23 + 1 from rfl, pairLoop_succ, onePass_cex_1]
  rfl

theorem resolveCollisions_cex :
    resolveCollisions 600 400 ptsCex rnd0 [cexP0, cexP1] = [cexQ0, cexQ1] := by
  unfold resolveCollisions
  rw [pairLoop_cex]
  show collinLoop 600 400 ptsCex 6 [cexQ0, cexQ1] = [cexQ0, cexQ1]
  have hcp : resolveCollinearity 600 400 ptsCex [cexQ0, cexQ1] = ([cexQ0, cexQ1], false) := by
    unfold resolveCollinearity
    rw [show triplesUpTo ptsCex.length = ([] : List (ℕ × ℕ × ℕ)) from rfl, List.foldl_nil]
  rw [show (6 : ℕ) = 5 + 1 from rfl, collinLoop_succ, hcp]
  rfl

/-- C2 counterexample: on the two-waypoint route `ptsCex` (46°N and 44°N on
the same meridian, 600×400 canvas, heuristic label measurement), the pairwise
phase exits early after its second pass (the 25-pass budget is not
exhausted), yet the final pixel distance of the only pair, 320, is more than
one pixel below the computed minimum separation 377.6: both nodes are pinned
against the vertical canvas padding and the claimed separation bound fails. -/
theorem resolver_separation_counterexample :
    pairLoop 600 400 ptsCex rnd0 25 0 (computeAllPositions 600 400 measH ptsCex) =
      ([cexQ0, cexQ1], 1, true) ∧
    resolveCollisions 600 400 ptsCex rnd0 (computeAllPositions 600 400 measH ptsCex) =
      [cexQ0, cexQ1] ∧
    pixelDist [cexQ0, cexQ1] 0 1 + 1 < minSepOf ptsCex [cexQ0, cexQ1] 0 1 := by
  refine ⟨?_, ?_, ?_⟩
  · rw [computeAll_cex]
    exact pairLoop_cex
  · rw [computeAll_cex]
    exact resolveCollisions_cex
  · have hd : pixelDist [cexQ0, cexQ1] 0 1 = 320 := by
      unfold pixelDist cexQ0 cexQ1
      simp only [List.getD_cons_zero, List.getD_cons_succ]
      norm_num [jsHypot_0_320]
    rw [hd, minSep_cex_Q]
    norm_num

/-- C5 counterexample: on the same concrete route, reverting from uniform
mode recomputes the projected positions and leaves them untouched (the
lightweight relaxation has no proximity factor, so 244 ≥ 236 means no push),
while the initial geographic layout had resolved them to the padding-pinned
positions; the two results differ, so toggling back does not reproduce the
initial geographic layout. -/
theorem uniform_revert_counterexample :
    revertToGeographic 600 400 measH ptsCex rnd0 [cexQ0, cexQ1] = [cexP0, cexP1] ∧
    resolveCollisions 600 400 ptsCex rnd0 (computeAllPositions 600 400 measH ptsCex) =
      [cexQ0, cexQ1] ∧
    [cexP0, cexP1] ≠ [cexQ0, cexQ1] := by
  refine ⟨?_, ?_, ?_⟩
  · unfold revertToGeographic
    rw [computeAllPositionsState_eq 600 400 measH ptsCex [cexQ0, cexQ1] rfl,
      computeAll_cex]
    have hrelax : relaxPass 600 400 ptsCex rnd0 0 [cexP0, cexP1] = ([cexP0, cexP1], false) := by
      unfold relaxPass
      rw [show pairsUpTo ptsCex.length = [(0, 1)] from rfl, List.foldl_cons, List.foldl_nil]
      show ((relaxStep 600 400 rnd0 0 0 1 [cexP0, cexP1]).1,
        false || (relaxStep 600 400 rnd0 0 0 1 [cexP0, cexP1]).2) = ([cexP0, cexP1], false)
      have hstep : relaxStep 600 400 rnd0 0 0 1 [cexP0, cexP1] = ([cexP0, cexP1], false) := by
        unfold relaxStep
        rw [dd_cex_pass0]
        have hms : relaxMinSep [cexP0, cexP1] 0 1 = 236 := by
          simp only [relaxMinSep, cexP0, cexP1, List.getD_cons_zero, List.getD_cons_succ]
          unfold jsOrNum
          norm_num
        rw [hms]
        rw [if_neg (show ¬(((0:ℝ), (244:ℝ), (244:ℝ)).2.2 < 236) by norm_num)]
      rw [hstep]
      rfl
    rw [show (20 : ℕ) = 19 + 1 from rfl, relaxLoop_succ, hrelax]
    rfl
  · rw [computeAll_cex]
    exact resolveCollisions_cex
  · intro h
    have h0 : cexP0 = cexQ0 := by
      injection h
    unfold cexP0 cexQ0 at h0
    rw [NodePos.mk.injEq] at h0
    have := h0.2.1
    norm_num at this

theorem jsHypot_520_0 : jsHypot 520 0 = 520 := jsHypot_eval (by norm_num) (by norm_num)

theorem dd_sPair : pairDxDyDist rnd0 0 0 1 sPair = (520, 0, 520) := by
  unfold pairDxDyDist sPair
  simp only [List.getD_cons_zero, List.getD_cons_succ]
  norm_num [jsHypot_520_0]

theorem minSep_sPair : minSepOf ptsPair sPair 0 1 = 38.4 := by
  simp only [minSepOf, ptsPair, sPair, List.getD_cons_zero, List.getD_cons_succ]
  simp only [haversineKm_self]
  rw [if_pos (by norm_num : (0 : ℝ) < 1000)]
  unfold jsOrNum
  norm_num

theorem step_sPair : pairStepM 600 400 ptsPair rnd0 0 0 1 sPair = (sPair, false) := by
  unfold pairStepM
  rw [dd_sPair, minSep_sPair]
  rw [if_neg (show ¬(((520 : ℝ), (0 : ℝ), (520 : ℝ)).2.2 < 38.4) by norm_num)]

theorem onePass_sPair : onePass 600 400 ptsPair rnd0 0 sPair = (sPair, false) := by
  unfold onePass
  rw [show pairsUpTo ptsPair.length = [(0, 1)] from rfl, List.foldl_cons, List.foldl_nil]
  show ((pairStepM 600 400 ptsPair rnd0 0 0 1 sPair).1,
    false || (pairStepM 600 400 ptsPair rnd0 0 0 1 sPair).2) = (sPair, false)
  rw [step_sPair]
  rfl

theorem pairLoop_sPair : pairLoop 600 400 ptsPair rnd0 25 0 sPair = (sPair, 0, true) := by
  rw [show (25 : ℕ) = 24 + 1 from rfl, pairLoop_succ, onePass_sPair]
  rfl

/-- Closed instance of `pairwise_separation_on_completion` at a concrete
early-exiting run. -/
theorem pairwise_separation_on_completion_check :
    minSepOf ptsPair sPair 0 1 ≤ (pairDxDyDist rnd0 0 0 1 sPair).2.2 ∨
      pairStepM 600 400 ptsPair rnd0 0 0 1 sPair = (sPair, false) :=
  pairwise_separation_on_completion 600 400 ptsPair rnd0 sPair sPair 0 0 1
    pairLoop_sPair (by decide)

theorem jsHypot_100_0 : jsHypot 100 0 = 100 := jsHypot_eval (by norm_num) (by norm_num)

theorem mkSeg_npos2 : mkSeg npos2 1 0 = segK0 := by
  unfold mkSeg npos2 animDuration segK0
  norm_num [jsHypot_100_0]

theorem stepK0 : stepSeg segK0 true 1000 = (segK1, true) := by
  unfold stepSeg segK0 segK1
  norm_num [Option.getD]

theorem stepK1 : stepSeg segK1 true 1300 = (segK2, true) := by
  unfold stepSeg segK1 segK2
  norm_num [Option.getD]

theorem stepK2_pause : stepSeg segK2 false 1400 = (segK3, true) := by
  unfold stepSeg segK2 segK3
  norm_num

theorem stepK3_resume : stepSeg segK3 true 1500 = (segK4, true) := by
  unfold stepSeg segK3 segK4
  norm_num [Option.getD]

theorem stepK2_cont : stepSeg segK2 true 1450 = (segK5, true) := by
  unfold stepSeg segK2 segK5
  norm_num [Option.getD]

theorem stepK5_end : stepSeg segK5 true 1600 = (segK6, false) := by
  unfold stepSeg segK5 segK6
  norm_num [Option.getD]

/-- C6 (amended). While a segment animation is in flight, Pause freezes the
marker in place and the per-frame loop keeps scheduling frames, clearing the
start anchor on every paused frame; on resume, the first running frame
re-anchors the start time to itself, so the segment's progress restarts from
0: the marker jumps back to the segment's start node rather than continuing
from the frozen progress point (paused wall-clock time is still not
fast-forwarded through). -/
theorem pause_resume_behavior :
    (∀ (seg : SegData) (ts : ℝ),
      (stepSeg seg false ts).1.cx = seg.cx ∧ (stepSeg seg false ts).1.cy = seg.cy ∧
        (stepSeg seg false ts).2 = true ∧ (stepSeg seg false ts).1.start = none) ∧
    (∀ (seg : SegData) (ts : ℝ), seg.start = none →
      (stepSeg seg true ts).1.cx = seg.ax ∧ (stepSeg seg true ts).1.cy = seg.ay) := by
  constructor
  · intro seg ts
    exact ⟨rfl, rfl, rfl, rfl⟩
  · intro seg ts h
    simp only [stepSeg, h]
    norm_num

/-- C6 counterexample: the first running frame arrives at ts=1000 (anchoring
start=1000), a frame at ts=1300 leaves the marker at x = 50 (mid-segment),
pause; the paused frame at ts=1400 keeps it frozen at 50; the first frame
after resume (ts=1500) puts the marker at x = 0, the segment's start — not
at the frozen x = 50: progress restarted instead of continuing. -/
theorem pause_resume_counterexample :
    (runSeg (mkSeg npos2 1 0) [(true, 1000), (true, 1300), (false, 1400)]).cx = 50 ∧
    (runSeg (mkSeg npos2 1 0)
      [(true, 1000), (true, 1300), (false, 1400), (true, 1500)]).cx = 0 ∧
    (0 : ℝ) ≠ 50 := by
  have h3 : runSeg (mkSeg npos2 1 0) [(true, 1000), (true, 1300), (false, 1400)] = segK3 := by
    rw [mkSeg_npos2]
    show runSeg (stepSeg segK0 true 1000).1 [(true, 1300), (false, 1400)] = segK3
    rw [stepK0]
    show runSeg (stepSeg segK1 true 1300).1 [(false, 1400)] = segK3
    rw [stepK1]
    show runSeg (stepSeg segK2 false 1400).1 [] = segK3
    rw [stepK2_pause]
    rfl
  have h4 : runSeg (mkSeg npos2 1 0)
      [(true, 1000), (true, 1300), (false, 1400), (true, 1500)] = segK4 := by
    rw [mkSeg_npos2]
    show runSeg (stepSeg segK0 true 1000).1 [(true, 1300), (false, 1400), (true, 1500)] = segK4
    rw [stepK0]
    show runSeg (stepSeg segK1 true 1300).1 [(false, 1400), (true, 1500)] = segK4
    rw [stepK1]
    show runSeg (stepSeg segK2 false 1400).1 [(true, 1500)] = segK4
    rw [stepK2_pause]
    show runSeg (stepSeg segK3 true 1500).1 [] = segK4
    rw [stepK3_resume]
    rfl
  refine ⟨?_, ?_, by norm_num⟩
  · rw [h3]
    rfl
  · rw [h4]
    rfl

/-- C7 (amended). The speed multiplier is sampled once per segment: the
duration is computed at `animateTo` entry as clamp(400, 6000,
pixelDistance · 6) / speed, and the per-frame loop never rereads the speed,
so a mid-segment speed change leaves the in-flight segment's frames (and
remaining duration) unchanged; the new speed takes effect only on a segment
started afterwards. -/
theorem speed_sampled_at_segment_start :
    (∀ (n : ℕ) (npos : ℕ → ℝ × ℝ) (v ts : ℝ) (s : Ctrl),
      ctrlStep n npos (Ev.frame ts) (ctrlStep n npos (Ev.speedInput v) s) =
        { ctrlStep n npos (Ev.frame ts) s with speed := v }) ∧
    (∀ (n : ℕ) (npos : ℕ → ℝ × ℝ) (v : ℝ) (s : Ctrl),
      s.playing = false → s.currentIndex < n - 1 →
        (ctrlStep n npos Ev.play (ctrlStep n npos (Ev.speedInput v) s)).phase =
          Phase.animating (mkSeg npos v s.currentIndex)) := by
  constructor
  · intro n npos v ts s
    obtain ⟨pl, sp, idx, ph⟩ := s
    cases ph with
    | idle => rfl
    | settling => rfl
    | animating seg =>
      simp only [ctrlStep]
      split_ifs <;> rfl
  · intro n npos v s h1 h2
    obtain ⟨pl, sp, idx, ph⟩ := s
    simp only [ctrlStep]
    rw [if_pos ⟨h1, h2⟩]

/-- C7 counterexample: with the 100-pixel segment (duration 600 ms at speed
1, first frame at ts=1000 anchoring start=1000), doubling the speed
multiplier at ts=1300 (progress 1/2) does NOT halve the remaining duration:
at ts=1450 — when a live speed read would have completed the segment — the
marker is at x = 75, not at the target x = 100, and `currentIndex` is still
0; the segment completes only at the originally scheduled ts=1600. -/
theorem speed_midsegment_counterexample :
    markerX (runEvents 2 npos2 [Ev.play, Ev.frame 1000, Ev.frame 1300, Ev.speedInput 2,
      Ev.frame 1450] ctrl0) = 75 ∧
    (runEvents 2 npos2 [Ev.play, Ev.frame 1000, Ev.frame 1300, Ev.speedInput 2,
      Ev.frame 1450] ctrl0).currentIndex = 0 ∧
    (runEvents 2 npos2 [Ev.play, Ev.frame 1000, Ev.frame 1300, Ev.speedInput 2,
      Ev.frame 1450, Ev.frame 1600] ctrl0).currentIndex = 1 ∧
    (75 : ℝ) ≠ 100 := by
  have hplay : ctrlStep 2 npos2 Ev.play ctrl0 = ⟨true, 1, 0, Phase.animating segK0⟩ := by
    simp only [ctrlStep, ctrl0]
    split_ifs with hc
    · rw [mkSeg_npos2]
    · exact absurd (by norm_num) hc
  have hf0 : ctrlStep 2 npos2 (Ev.frame 1000) ⟨true, 1, 0, Phase.animating segK0⟩ =
      ⟨true, 1, 0, Phase.animating segK1⟩ := by
    simp only [ctrlStep]
    rw [stepK0]
    rfl
  have hf300 : ctrlStep 2 npos2 (Ev.frame 1300) ⟨true, 1, 0, Phase.animating segK1⟩ =
      ⟨true, 1, 0, Phase.animating segK2⟩ := by
    simp only [ctrlStep]
    rw [stepK1]
    rfl
  have hsp : ctrlStep 2 npos2 (Ev.speedInput 2) ⟨true, 1, 0, Phase.animating segK2⟩ =
      ⟨true, 2, 0, Phase.animating segK2⟩ := rfl
  have hf450 : ctrlStep 2 npos2 (Ev.frame 1450) ⟨true, 2, 0, Phase.animating segK2⟩ =
      ⟨true, 2, 0, Phase.animating segK5⟩ := by
    simp only [ctrlStep]
    rw [stepK2_cont]
    rfl
  have hf600 : ctrlStep 2 npos2 (Ev.frame 1600) ⟨true, 2, 0, Phase.animating segK5⟩ =
      ⟨true, 2, 1, Phase.settling⟩ := by
    simp only [ctrlStep]
    rw [stepK5_end]
    rfl
  have hrun : runEvents 2 npos2 [Ev.play, Ev.frame 1000, Ev.frame 1300, Ev.speedInput 2,
      Ev.frame 1450] ctrl0 = ⟨true, 2, 0, Phase.animating segK5⟩ := by
    simp only [runEvents, List.foldl_cons, List.foldl_nil]
    rw [hplay, hf0, hf300, hsp, hf450]
  have hrun2 : runEvents 2 npos2 [Ev.play, Ev.frame 1000, Ev.frame 1300, Ev.speedInput 2,
      Ev.frame 1450, Ev.frame 1600] ctrl0 = ⟨true, 2, 1, Phase.settling⟩ := by
    simp only [runEvents, List.foldl_cons, List.foldl_nil]
    rw [hplay, hf0, hf300, hsp, hf450, hf600]
  refine ⟨?_, ?_, ?_, by norm_num⟩
  · rw [hrun]
    rfl
  · rw [hrun]
  · rw [hrun2]

/-- C8. Over any execution of the playback controller, currentIndex is
non-decreasing; a single transition changes it only by +1, and only on a
frame event that completes the in-flight segment (progress t reached 1 while
playing); it never advances during a paused or still-running segment. -/
theorem currentIndex_monotone :
    (∀ (n : ℕ) (npos : ℕ → ℝ × ℝ) (e : Ev) (s : Ctrl),
      s.currentIndex ≤ (ctrlStep n npos e s).currentIndex) ∧
    (∀ (n : ℕ) (npos : ℕ → ℝ × ℝ) (e : Ev) (s : Ctrl),
      (ctrlStep n npos e s).currentIndex ≠ s.currentIndex →
        (ctrlStep n npos e s).currentIndex = s.currentIndex + 1 ∧
        ∃ ts seg, e = Ev.frame ts ∧ s.phase = Phase.animating seg ∧
          s.playing = true ∧ (stepSeg seg true ts).2 = false) ∧
    (∀ (n : ℕ) (npos : ℕ → ℝ × ℝ) (evs : List Ev) (s : Ctrl),
      s.currentIndex ≤ (runEvents n npos evs s).currentIndex) := by
  have hstep : ∀ (n : ℕ) (npos : ℕ → ℝ × ℝ) (e : Ev) (s : Ctrl),
      s.currentIndex ≤ (ctrlStep n npos e s).currentIndex := by
    intro n npos e s
    obtain ⟨pl, sp, idx, ph⟩ := s
    cases e with
    | play =>
      simp only [ctrlStep]
      split_ifs <;> exact le_rfl
    | pause => exact le_rfl
    | speedInput v => exact le_rfl
    | frame ts =>
      cases ph with
      | idle => exact le_rfl
      | settling => exact le_rfl
      | animating seg =>
        simp only [ctrlStep]
        split_ifs <;> simp
    | settleDone =>
      cases ph with
      | idle => exact le_rfl
      | settling =>
        simp only [ctrlStep]
        split_ifs <;> exact le_rfl
      | animating seg => exact le_rfl
  refine ⟨hstep, ?_, ?_⟩
  · intro n npos e s h
    obtain ⟨pl, sp, idx, ph⟩ := s
    cases e with
    | play =>
      exfalso
      apply h
      simp only [ctrlStep]
      split_ifs <;> rfl
    | pause => exact absurd rfl h
    | speedInput v => exact absurd rfl h
    | settleDone =>
      exfalso
      apply h
      cases ph with
      | idle => rfl
      | animating seg => rfl
      | settling =>
        simp only [ctrlStep]
        split_ifs <;> rfl
    | frame ts =>
      cases ph with
      | idle => exact absurd rfl h
      | settling => exact absurd rfl h
      | animating seg =>
        cases pl with
        | false =>
          exfalso
          apply h
          simp only [ctrlStep]
          rw [show (stepSeg seg false ts).2 = true from rfl]
          rfl
        | true =>
          simp only [ctrlStep] at h ⊢
          cases hB : (stepSeg seg true ts).2 with
          | true =>
            rw [hB] at h
            simp at h
          | false => exact ⟨rfl, ts, seg, rfl, rfl, trivial, hB⟩
  · intro n npos evs
    induction evs with
    | nil => intro s; exact le_rfl
    | cons e t ih =>
      intro s
      exact le_trans (hstep n npos e s) (ih (ctrlStep n npos e s))

/-- C9 (amended). Normalization drops exactly the records with no complete
coordinate-field pair in either accepted shape ({lat,lng} or
{latitude,longitude}); a record whose fields are present but unparseable is
kept with NaN coordinates, not filtered. When the filtered sequence is empty
(and when ROUTE_DATA is missing) the script stops at a terminal message and
no layout or playback is attempted. -/
theorem normalization_and_empty_state :
    (∀ r : RawRec, normalizeRec r = none ↔
      ((r.lat = none ∨ r.lng = none) ∧ (r.latitude = none ∨ r.longitude = none))) ∧
    (∀ rd : RouteData, normalize (pickCoords rd) = [] →
      runViz (some rd) = RenderOutcome.emptyMsg) ∧
    runViz none = RenderOutcome.noData := by
  refine ⟨?_, ?_, rfl⟩
  · intro r
    unfold normalizeRec
    split_ifs with h1 h2
    · simp only [reduceCtorEq, false_iff]
      intro hc
      rcases hc.1 with hc1 | hc1
      · exact h1.1 hc1
      · exact h1.2 hc1
    · simp only [reduceCtorEq, false_iff]
      intro hc
      rcases hc.2 with hc2 | hc2
      · exact h2.1 hc2
      · exact h2.2 hc2
    · simp only [true_iff]
      rw [not_and_or, not_not, not_not] at h1 h2
      exact ⟨h1, h2⟩
  · intro rd h
    simp only [runViz]
    rw [if_pos h]

/-- C9 counterexample: a record whose lat/lng are present but unparseable
("abc"-style strings coerce to NaN) is NOT filtered out: it is kept with NaN
coordinates and the page proceeds to render, contrary to the claim that
unparseable entries are filtered. -/
theorem unparseable_record_kept :
    normalize [⟨some JNum.nan, some JNum.nan, none, none, some "X", none⟩] =
      [⟨none, none, "X"⟩] ∧
    runViz (some ⟨some [⟨some JNum.nan, some JNum.nan, none, none, some "X", none⟩], none⟩) =
      RenderOutcome.render [⟨none, none, "X"⟩] := by
  constructor
  · rfl
  · rfl

theorem applyUniform_length {width height : ℝ} {pts : List Waypoint}
    {simOut : ℕ → ℝ × ℝ} {s : List NodePos} :
    (applyUniformLinkLayout width height pts simOut s).length = s.length := by
  unfold applyUniformLinkLayout
  split_ifs with h
  · rfl
  · exact foldl_set_length _ (List.range pts.length) s

theorem revert_length {width height : ℝ} {measure : Measure} {pts : List Waypoint}
    {rnd2 : Rnd} {s : List NodePos} (h : s.length = pts.length) :
    (revertToGeographic width height measure pts rnd2 s).length = pts.length := by
  unfold revertToGeographic
  rw [computeAllPositionsState_eq width height measure pts s h]
  have hbase : (computeAllPositions width height measure pts).length = pts.length := by
    unfold computeAllPositions
    simp
  have hpass : ∀ (s' : List NodePos) (p : ℕ),
      (relaxPass width height pts rnd2 p s').1.length = s'.length := by
    intro s' p
    unfold relaxPass
    have hfold : ∀ (l : List (ℕ × ℕ)) (acc : List NodePos × Bool),
        (l.foldl (relaxFold width height rnd2 p) acc).1.length = acc.1.length := by
      intro l
      induction l with
      | nil => intro acc; rfl
      | cons ij t ih =>
        intro acc
        rw [List.foldl_cons, ih]
        show (relaxStep width height rnd2 p ij.1 ij.2 acc.1).1.length = acc.1.length
        unfold relaxStep
        split_ifs with hc
        · simp
        · rfl
    exact hfold (pairsUpTo pts.length) (s', false)
  have hloop : ∀ (fuel p : ℕ) (s' : List NodePos),
      (relaxLoop width height pts rnd2 fuel p s').length = s'.length := by
    intro fuel
    induction fuel with
    | zero => intro p s'; rfl
    | succ fuel ih =>
      intro p s'
      rw [relaxLoop_succ]
      split_ifs with hc
      · rw [ih, hpass]
      · exact hpass s' p
  rw [hloop, hbase]

/-- C10. Toggling the layout mode repositions the traveller marker to node
index 0 of the new layout regardless of the playback index, and leaves
`currentIndex` unchanged; in the uniform direction, node 0's new position is
exactly the clamped simulation position for node 0. -/
theorem toggle_repositions_marker (width height : ℝ) (pts : List Waypoint)
    (simOut : ℕ → ℝ × ℝ) (measure : Measure) (rnd2 : Rnd) (S : VizState)
    (hlen : S.npos.length = pts.length) (h2 : 2 ≤ pts.length) :
    (uniformClick width height pts simOut measure rnd2 S).currentIndex = S.currentIndex ∧
    (uniformClick width height pts simOut measure rnd2 S).trav =
      (((uniformClick width height pts simOut measure rnd2 S).npos.getD 0 dNP).x,
       ((uniformClick width height pts simOut measure rnd2 S).npos.getD 0 dNP).y) ∧
    (S.isUniform = false →
      ((uniformClick width height pts simOut measure rnd2 S).npos.getD 0 dNP).x =
        clampR pad (width - pad) (simOut 0).1 ∧
      ((uniformClick width height pts simOut measure rnd2 S).npos.getD 0 dNP).y =
        clampR pad (height - pad) (simOut 0).2) := by
  have hn1 : ¬pts.length ≤ 1 := by omega
  obtain ⟨npos, trav, idx, pl, isU⟩ := S
  simp only at hlen
  cases isU with
  | false =>
    have hgetD : (applyUniformLinkLayout width height pts simOut npos).getD 0 dNP =
        uniformMerge width height pts simOut npos 0 := by
      unfold applyUniformLinkLayout
      rw [if_neg hn1]
      rw [foldl_set_getD dNP (uniformMerge width height pts simOut npos)
        (List.range pts.length) npos 0 (by omega)]
      rw [if_pos (List.mem_range.mpr (by omega))]
    have hlen2 : 0 < (applyUniformLinkLayout width height pts simOut npos).length := by
      rw [applyUniform_length]
      omega
    simp only [uniformClick, Bool.not_false, if_neg hn1, if_true]
    refine ⟨trivial, ?_, ?_⟩
    · rw [if_pos hlen2]
    · intro _
      rw [hgetD]
      exact ⟨rfl, rfl⟩
  | true =>
    have hlen2 : 0 < (revertToGeographic width height measure pts rnd2 npos).length := by
      rw [revert_length hlen]
      omega
    simp only [uniformClick, Bool.not_true, Bool.false_eq_true, if_false]
    refine ⟨trivial, ?_, ?_⟩
    · rw [if_pos hlen2]
    · intro hc
      exact absurd hc (by simp)

/-- Closed instance of `toggle_repositions_marker` at a concrete input. -/
theorem toggle_repositions_marker_check :
    (uniformClick 600 400 ptsPair (fun _ => (0, 0)) measH rnd0
      ⟨[dNP, dNP], (7, 7), 5, false, false⟩).currentIndex = 5 ∧
    (uniformClick 600 400 ptsPair (fun _ => (0, 0)) measH rnd0
      ⟨[dNP, dNP], (7, 7), 5, false, false⟩).trav =
      (((uniformClick 600 400 ptsPair (fun _ => (0, 0)) measH rnd0
        ⟨[dNP, dNP], (7, 7), 5, false, false⟩).npos.getD 0 dNP).x,
       ((uniformClick 600 400 ptsPair (fun _ => (0, 0)) measH rnd0
        ⟨[dNP, dNP], (7, 7), 5, false, false⟩).npos.getD 0 dNP).y) ∧
    ((false : Bool) = false →
      ((uniformClick 600 400 ptsPair (fun _ => (0, 0)) measH rnd0
        ⟨[dNP, dNP], (7, 7), 5, false, false⟩).npos.getD 0 dNP).x =
        clampR pad (600 - pad) ((0 : ℝ), (0 : ℝ)).1 ∧
      ((uniformClick 600 400 ptsPair (fun _ => (0, 0)) measH rnd0
        ⟨[dNP, dNP], (7, 7), 5, false, false⟩).npos.getD 0 dNP).y =
        clampR pad (400 - pad) ((0 : ℝ), (0 : ℝ)).2) :=
  toggle_repositions_marker 600 400 ptsPair (fun _ => (0, 0)) measH rnd0
    ⟨[dNP, dNP], (7, 7), 5, false, false⟩ (by rfl) (by decide)

/-- Closed instance of `layout_bounds_invariant` at a concrete input. -/
theorem layout_bounds_invariant_check :
    InBounds 600 400
      (resolveCollisions 600 400 [⟨0, 0, "A"⟩] (fun _ _ _ => (0, 0))
        (computeAllPositions 600 400 (fun _ _ => none) [⟨0, 0, "A"⟩])) ∧
    InBounds 600 400
      (applyUniformLinkLayout 600 400 [⟨0, 0, "A"⟩] (fun _ => (0, 0))
        (resolveCollisions 600 400 [⟨0, 0, "A"⟩] (fun _ _ _ => (0, 0))
          (computeAllPositions 600 400 (fun _ _ => none) [⟨0, 0, "A"⟩]))) :=
  layout_bounds_invariant 600 400 (fun _ _ => none) [⟨0, 0, "A"⟩]
    (fun _ _ _ => (0, 0)) (fun _ => (0, 0)) (by norm_num) (by norm_num)
    (fun l f wh hwh => by simp at hwh) (by simp)

end

end TSPViz
